import Mathlib

/-!
Shallow embedding of the per-room chat/game coordinator of the
workers-chat-puzzle repository, together with proofs about the claims of
its specification.

The embedding follows the source files:
* the `ChatRoom` Durable Object class (game state save/restore, turtle-soup
  confirmation handshake, turn handling, broadcast, user setup),
* the `RateLimiter` Durable Object class,
* `safeString` from the shared utilities, and
* `AIHost.applyGameLogic` / `AIHost.smoothProgress` from the AI host module.

JavaScript `Map`s are modelled as association lists in insertion order
(`Map.set` replaces in place, `Map.delete` removes the entry), JavaScript
`Set`s as duplicate-free lists in insertion order, and the `a || b`
fallback idiom is modelled by explicit falsiness tests on each type
(`false`, `0`, `""` and `null` are falsy; objects and arrays are truthy).
-/

namespace WorkersChat

/-- JS `Map.get` on an association list (first matching key). -/
def mapGet {β : Type} (k : String) : List (String × β) → Option β
  | [] => none
  | (k', v) :: rest => if k' = k then some v else mapGet k rest

/-- JS `Map.set` on an association list: replace in place, else append. -/
def mapSet {β : Type} (k : String) (v : β) : List (String × β) → List (String × β)
  | [] => [(k, v)]
  | (k', v') :: rest => if k' = k then (k, v) :: rest else (k', v') :: mapSet k v rest

/-- JS `Map.delete` on an association list. -/
def mapDelete {β : Type} (k : String) : List (String × β) → List (String × β)
  | [] => []
  | (k', v') :: rest => if k' = k then rest else (k', v') :: mapDelete k rest

/-- JS `Set.add`: ignored if the element is already present, else appended. -/
def setAdd (x : String) (s : List String) : List String :=
  if x ∈ s then s else s ++ [x]

/-- Model of `new Map(entries)`: inserts the entries in order, later entries
overriding earlier ones with the same key. -/
def mapFromEntries {β : Type} (l : List (String × β)) : List (String × β) :=
  l.foldl (fun m kv => mapSet kv.1 kv.2 m) []

/-- The keys of an association list. -/
def mapKeys {β : Type} (l : List (String × β)) : List String := l.map Prod.fst

/-- Model of `safeString(value, maxLength)` from `utils.mjs`: a string longer than
`maxLength` is sliced to its first `maxLength` characters; shorter strings
are returned unchanged.  (The value-coercion branch for non-strings is not
modelled; inputs are strings.) -/
def safeString (value : String) (maxLength : Nat) : String :=
  if value.length > maxLength then ⟨value.data.take maxLength⟩ else value

/-- JS `v || d` for strings: the empty string is falsy. -/
def jsOrString (v d : String) : String := if v = "" then d else v

/-- JS `v || null` for a nullable string field: `null` stays `null` and an
empty string collapses to `null`. -/
def jsOrNullString (v : Option String) : Option String :=
  match v with
  | some s => if s = "" then none else some s
  | none => none

/-- JS `n || 0` for a number field restored from the snapshot. -/
def jsOrZero (n : Nat) : Nat := if n = 0 then 0 else n

/-- Per-user cumulative score record (`{ totalScore, questionCount }`). -/
structure UserScore where
  totalScore : Int
  questionCount : Nat
deriving DecidableEq, Repr

/-- A puzzle object as held in `currentPuzzle` (always truthy in JS). -/
structure Puzzle where
  id : String
  title : String
  surface : String
deriving DecidableEq, Repr

/-- A pending-confirmation ticket: the set of users that have accepted so
far and the participant list frozen when the request was made. -/
structure Ticket where
  confirmedUsers : List String
  originalParticipants : List String
deriving DecidableEq, Repr

/-- The game-relevant state of a `ChatRoom` instance. -/
structure Room where
  turtleSoupActive : Bool
  turtleSoupParticipants : List String
  turtleSoupInitiator : Option String
  currentTurnIndex : Nat
  currentPuzzle : Option Puzzle
  aiHostActive : Bool
  aiHostInitiator : Option String
  aiHostParticipants : List String
  userScores : List (String × UserScore)
  pendingConfirmations : List (String × Ticket)
  lastTimestamp : Nat
deriving DecidableEq, Repr

/-- Model of `initializeDefaultGameState()`. -/
def initializeDefaultGameState : Room :=
  { turtleSoupActive := false
    turtleSoupParticipants := []
    turtleSoupInitiator := none
    currentTurnIndex := 0
    currentPuzzle := none
    aiHostActive := false
    aiHostInitiator := none
    aiHostParticipants := []
    userScores := []
    pendingConfirmations := []
    lastTimestamp := 0 }

/-- The serialized game-state snapshot written by `saveGameState()`. -/
structure Snapshot where
  turtleSoupActive : Bool
  turtleSoupParticipants : List String
  turtleSoupInitiator : Option String
  currentTurnIndex : Nat
  currentPuzzle : Option Puzzle
  aiHostActive : Bool
  aiHostInitiator : Option String
  aiHostParticipants : List String
  userScores : List (String × UserScore)
  timestamp : Nat
deriving DecidableEq, Repr

/-- Model of `saveGameState()`: project the room's game fields into the snapshot,
with `userScores` as `Array.from(map.entries())` and a write timestamp. -/
def saveGameState (r : Room) (now : Nat) : Snapshot :=
  { turtleSoupActive := r.turtleSoupActive
    turtleSoupParticipants := r.turtleSoupParticipants
    turtleSoupInitiator := r.turtleSoupInitiator
    currentTurnIndex := r.currentTurnIndex
    currentPuzzle := r.currentPuzzle
    aiHostActive := r.aiHostActive
    aiHostInitiator := r.aiHostInitiator
    aiHostParticipants := r.aiHostParticipants
    userScores := r.userScores
    timestamp := now }

/-- Model of `restoreGameState()` applied to a present snapshot: each field is read
with a `|| default` fallback (`state.x || false`, `|| []`, `|| null`,
`|| 0`), `userScores` is rebuilt with `new Map(state.userScores || [])`,
and `pendingConfirmations` is reset to an empty map.  JSON arrays and
objects are truthy, so the array- and object-valued fallbacks are
identities; the string-valued initiator fields collapse an empty string to
`null`.  `lastTimestamp` keeps its constructor value `0`. -/
def restoreGameState (snap : Snapshot) : Room :=
  { turtleSoupActive := snap.turtleSoupActive || false
    turtleSoupParticipants := snap.turtleSoupParticipants
    turtleSoupInitiator := jsOrNullString snap.turtleSoupInitiator
    currentTurnIndex := jsOrZero snap.currentTurnIndex
    currentPuzzle := snap.currentPuzzle
    aiHostActive := snap.aiHostActive || false
    aiHostInitiator := jsOrNullString snap.aiHostInitiator
    aiHostParticipants := snap.aiHostParticipants
    userScores := mapFromEntries snap.userScores
    pendingConfirmations := []
    lastTimestamp := 0 }

/-- Broadcast payloads produced by the room handlers.  Each constructor
mirrors one JSON message shape sent by the source; fields not inspected by
any claim (formatted text, statistics, timestamps stamped by deferred
timers) are carried as plain values or elided. -/
inductive BMsg where
  | chat (name message : String) (timestamp : Nat)
      (turtleSoupMessage aiHostQuestion : Bool)
  | aiAnswer (formatted : String)
  | turnChange (turnIndex : Nat) (nextPlayer : Option String)
      (userScores : Option (List (String × UserScore)))
  | tsRequest (initiator : String) (participants : List String)
  | tsConfirm (initiator : String) (confirmed : Bool) (user : String)
  | tsStart (initiator : String) (participants : List String)
  | tsEnd
  | puzzleStart (initiator : String) (participants : List String) (puzzle : Puzzle)
  | aiResponse (questioner question formattedMessage : String)
  | aiGameSolved
  | aiHostEnd
  | errorMsg (message : String)
deriving DecidableEq, Repr

/-- Observable actions of a handler, in program order.  Actions scheduled
through `setTimeout` are appended after the handler's immediate actions,
reflecting that the timers fire after the handler returns. -/
inductive Effect where
  | save (snap : Snapshot)
  | broadcast (m : BMsg)
  | putMessage (key : Nat) (m : BMsg)
  | sendSelf (m : BMsg)
deriving DecidableEq, Repr

/-- Model of `startTurtleSoup(initiator, participants)`: activate the game, reset
the turn index, reinitialize every participant's score to zero, save the
snapshot, then broadcast the start message. -/
def startTurtleSoup (r : Room) (now : Nat) (initiator : String)
    (participants : List String) : Room × List Effect :=
  let r' : Room :=
    { r with
      turtleSoupActive := true
      turtleSoupInitiator := some initiator
      turtleSoupParticipants := participants
      currentTurnIndex := 0
      userScores := participants.foldl (fun m p => mapSet p ⟨0, 0⟩ m) [] }
  (r', [.save (saveGameState r' now), .broadcast (.tsStart initiator participants)])

/-- Model of `handleTurtleSoupRequest`: reject when a game is active, ignore a
duplicate request from the same initiator, otherwise freeze the
deduplicated server-side online-user list into a fresh ticket and
broadcast the request.  (`onlineUsers` is the in-order list of named
sessions; the 30-second expiry timer is a separate event.) -/
def handleTurtleSoupRequest (r : Room) (onlineUsers : List String)
    (initiator : String) : Room × List Effect :=
  if r.turtleSoupActive then
    (r, [.sendSelf (.errorMsg "already active")])
  else if (mapGet initiator r.pendingConfirmations).isSome then
    (r, [])
  else
    let actualParticipants := onlineUsers.foldl (fun s u => setAdd u s) []
    ({ r with pendingConfirmations :=
        mapSet initiator ⟨[], actualParticipants⟩ r.pendingConfirmations },
     [.broadcast (.tsRequest initiator actualParticipants)])

/-- The 30-second confirmation timeout: if the ticket is still pending,
discard it and broadcast a timeout error. -/
def confirmationTimeout (r : Room) (initiator : String) : Room × List Effect :=
  if (mapGet initiator r.pendingConfirmations).isSome then
    ({ r with pendingConfirmations := mapDelete initiator r.pendingConfirmations },
     [.broadcast (.errorMsg "request timeout")])
  else
    (r, [])

/-- Model of `handleTurtleSoupConfirmation(session, data)`: look up the pending
ticket for `data.initiator`; a decline cancels the ticket and broadcasts
the cancellation; a duplicate accept is ignored; a fresh accept is
recorded and echoed, and when the number of accepted users equals the
number of frozen participants other than the initiator, the game starts
and the ticket is deleted. -/
def handleTurtleSoupConfirmation (r : Room) (now : Nat) (initiator user : String)
    (confirmed : Bool) : Room × List Effect :=
  match mapGet initiator r.pendingConfirmations with
  | none => (r, [])
  | some t =>
    if !confirmed then
      ({ r with pendingConfirmations := mapDelete initiator r.pendingConfirmations },
       [.broadcast (.tsConfirm initiator false user)])
    else if user ∈ t.confirmedUsers then
      (r, [])
    else
      let confirmedUsers' := t.confirmedUsers ++ [user]
      let ticket' : Ticket := ⟨confirmedUsers', t.originalParticipants⟩
      let pending1 := mapSet initiator ticket' r.pendingConfirmations
      let r1 : Room := { r with pendingConfirmations := pending1 }
      let echo : List Effect := [.broadcast (.tsConfirm initiator true user)]
      let requiredConfirmations := t.originalParticipants.filter (fun u' => u' ≠ initiator)
      if confirmedUsers'.length = requiredConfirmations.length then
        let started := startTurtleSoup r1 now initiator t.originalParticipants
        let pending2 := mapDelete initiator started.1.pendingConfirmations
        ({ started.1 with pendingConfirmations := pending2 }, echo ++ started.2)
      else
        (r1, echo)

/-- Model of `endAIHostMode()`: clear the AI-host fields (statistics gathering and
`aiHost.cleanup()` have no game-state effect), save the snapshot, then
broadcast the end message. -/
def endAIHostMode (r : Room) (now : Nat) : Room × List Effect :=
  let r' : Room :=
    { r with aiHostActive := false, aiHostInitiator := none, aiHostParticipants := [] }
  (r', [.save (saveGameState r' now), .broadcast .aiHostEnd])

/-- Model of `endTurtleSoup()`: clear the base game state (participants, initiator,
turn index, scores), tear down the AI overlay first if it is active, save
the snapshot, then broadcast the end message. -/
def endTurtleSoup (r : Room) (now : Nat) : Room × List Effect :=
  let r1 : Room :=
    { r with
      turtleSoupActive := false
      turtleSoupParticipants := []
      turtleSoupInitiator := none
      currentTurnIndex := 0
      userScores := [] }
  let overlay := if r1.aiHostActive then endAIHostMode r1 now else (r1, [])
  (overlay.1,
   overlay.2 ++ [.save (saveGameState overlay.1 now), .broadcast .tsEnd])

/-- Model of `handleTurtleSoupEnd`: only the initiator may end an active game. -/
def handleTurtleSoupEnd (r : Room) (now : Nat) (senderName : String) :
    Room × List Effect :=
  if !r.turtleSoupActive || r.turtleSoupInitiator ≠ some senderName then
    (r, [])
  else
    endTurtleSoup r now

/-- Model of `handleTurtleSoupTurnChange`: only the initiator may force a turn
change while active; the client-supplied index is stored without a bounds
check and rebroadcast. -/
def handleTurtleSoupTurnChange (r : Room) (senderName : String)
    (turnIndex : Nat) (nextPlayer : Option String) : Room × List Effect :=
  if !r.turtleSoupActive || r.turtleSoupInitiator ≠ some senderName then
    (r, [])
  else
    ({ r with currentTurnIndex := turnIndex },
     [.broadcast (.turnChange turnIndex nextPlayer none)])

/-- Does `sub` occur as a contiguous run inside `l`? -/
def charsContain (sub : List Char) : List Char → Bool
  | [] => sub.isEmpty
  | c :: rest => sub.isPrefixOf (c :: rest) || charsContain sub rest

/-- Substring containment, modelling JS `String.includes`. -/
def strContains (s sub : String) : Bool := charsContain sub.data s.data

/-- The four canned answers of the built-in turtle-soup responder. -/
def aiAnswers : List String := ["是", "不是", "是也不是", "没有关系"]

/-- Result of `generateAIResponse`. -/
structure GenAIResp where
  answer : String
  score : Int
  quality : String
  formatted : String
deriving DecidableEq, Repr

/-- Model of `generateAIResponse(question)`: the answer is drawn at random (the
draw `Math.floor(Math.random() * 4)` is the `pick` parameter); the score
starts at 5, gains 2 for why/how questions, else 1 for yes/no-shaped
questions, loses 1 for questions shorter than 5 characters, and is clamped
to `[1, 10]`. -/
def generateAIResponse (pick : Nat) (question : String) : GenAIResp :=
  let response := aiAnswers.getD (pick % 4) "是"
  let questionLower := question.toLower
  let score : Int := 5
  let scoreQuality : Int × String :=
    if strContains questionLower "为什么" || strContains questionLower "怎么" ||
        strContains questionLower "如何" then
      (score + 2, "很好")
    else if strContains questionLower "是否" || strContains questionLower "是不是" ||
        question.endsWith "吗？" || question.endsWith "吗" then
      (score + 1, "不错")
    else
      (score, "一般")
  let scoreQuality2 : Int × String :=
    if question.length < 5 then (scoreQuality.1 - 1, "可以更详细") else scoreQuality
  let finalScore := max 1 (min 10 scoreQuality2.1)
  { answer := response
    score := finalScore
    quality := scoreQuality2.2
    formatted := response ++ "（问题质量：" ++ scoreQuality2.2 ++ "）" }

/-- Model of `updateUserScore(userName, score)`: create a zero record on first use,
then add the score and bump the question count. -/
def updateUserScore (scores : List (String × UserScore)) (userName : String)
    (score : Int) : List (String × UserScore) :=
  let scores1 :=
    if (mapGet userName scores).isNone then mapSet userName ⟨0, 0⟩ scores else scores
  match mapGet userName scores1 with
  | some u => mapSet userName ⟨u.totalScore + score, u.questionCount + 1⟩ scores1
  | none => scores1

/-- Model of `scheduleAIResponse(aiResponse)`: two nested timers broadcast the AI
answer and then the turn change (carrying the score map); both fire after
the handler returns, so these effects are deferred. -/
def scheduleAIResponse (r : Room) (resp : GenAIResp) : List Effect :=
  [.broadcast (.aiAnswer resp.formatted),
   .broadcast (.turnChange r.currentTurnIndex
     (r.turtleSoupParticipants[r.currentTurnIndex]?) (some r.userScores))]

/-- Model of `handleTurtleSoupMessage(session, messageData)`: if the sender is not
`participants[turnIndex]` the handler returns with no effect; otherwise it
scores the question, advances the turn index mod the participant count,
and schedules the deferred AI-answer and turn-change broadcasts.  The
returned effects are all deferred (timer-scheduled). -/
def handleTurtleSoupMessage (r : Room) (pick : Nat) (senderName message : String) :
    Room × List Effect :=
  let currentPlayer := r.turtleSoupParticipants[r.currentTurnIndex]?
  if currentPlayer ≠ some senderName then
    (r, [])
  else
    let resp := generateAIResponse pick message
    let scores' := updateUserScore r.userScores senderName resp.score
    let newIndex := (r.currentTurnIndex + 1) % r.turtleSoupParticipants.length
    let r' : Room := { r with userScores := scores', currentTurnIndex := newIndex }
    (r', scheduleAIResponse r' resp)

/-- Outcome of one `aiHost.processQuestion` call, abstracting the LLM
round trip: the call may fail (`result.success` false), throw, or return a
formatted response together with whether `checkIfSolved` holds. -/
inductive AIOutcome where
  | failure (errorMessage : String)
  | crash
  | ok (formattedMessage : String) (solved : Bool)
deriving DecidableEq, Repr

/-- Model of `processAIHostQuestion(userId, question)`: failure and thrown errors
broadcast an error message; a solved response broadcasts the solved
message and tears down AI-host mode; otherwise the AI response is
broadcast. -/
def processAIHostQuestion (r : Room) (now : Nat) (ai : AIOutcome)
    (userId question : String) : Room × List Effect :=
  match ai with
  | .failure msg => (r, [.broadcast (.errorMsg msg)])
  | .crash => (r, [.broadcast (.errorMsg "处理问题时发生内部错误，请重试")])
  | .ok formattedMessage solved =>
    if solved then
      let ended := endAIHostMode r now
      (ended.1, [.broadcast .aiGameSolved] ++ ended.2)
    else
      (r, [.broadcast (.aiResponse userId question formattedMessage)])

/-- Model of `handleTurtleSoupAIMessage(session, messageData)`: wrong-turn messages
return with no effect; otherwise the question is routed through the AI
host, the turn index advances mod the participant count, and a deferred
timer saves the snapshot and then broadcasts the turn change. -/
def handleTurtleSoupAIMessage (r : Room) (now : Nat) (ai : AIOutcome)
    (senderName message : String) : Room × List Effect :=
  let currentPlayer := r.turtleSoupParticipants[r.currentTurnIndex]?
  if currentPlayer ≠ some senderName then
    (r, [])
  else
    let processed := processAIHostQuestion r now ai senderName message
    let r1 := processed.1
    let newIndex := (r1.currentTurnIndex + 1) % r1.turtleSoupParticipants.length
    let r2 : Room := { r1 with currentTurnIndex := newIndex }
    (r2, processed.2 ++
      [.save (saveGameState r2 now),
       .broadcast (.turnChange newIndex (r2.turtleSoupParticipants[newIndex]?) none)])

/-- Model of `handleChatMessage(webSocket, session, data)`: validate and stamp the
message with a strictly increasing timestamp, then dispatch: AI-question
turns inside an AI-hosted turtle soup and standalone AI-host questions
return without broadcasting the raw message; a plain turtle-soup turn is
processed (its effects are deferred) and the raw chat message is then
broadcast and persisted, which also happens for ordinary chat. -/
def handleChatMessage (r : Room) (now pick : Nat) (ai : AIOutcome)
    (senderName rawMessage : String) (turtleSoupMessage aiHostQuestion : Bool) :
    Room × List Effect :=
  let message := safeString rawMessage 256
  if message.length > 256 then
    (r, [.sendSelf (.errorMsg "Message too long")])
  else
    let ts := max now (r.lastTimestamp + 1)
    let r0 : Room := { r with lastTimestamp := ts }
    let chatMsg := BMsg.chat senderName message ts turtleSoupMessage aiHostQuestion
    if turtleSoupMessage && aiHostQuestion && r0.turtleSoupActive && r0.aiHostActive then
      handleTurtleSoupAIMessage r0 now ai senderName message
    else if r0.aiHostActive && !turtleSoupMessage then
      processAIHostQuestion r0 now ai senderName message
    else
      let turn :=
        if turtleSoupMessage && r0.turtleSoupActive && !r0.aiHostActive then
          handleTurtleSoupMessage r0 pick senderName message
        else
          (r0, [])
      (turn.1, [.broadcast chatMsg, .putMessage ts chatMsg] ++ turn.2)

/-- Model of `handleTurtleSoupPuzzleSelected(session, data)`: only the initiator of
an active turtle soup may select a puzzle; on a successful AI-host start
(`startOk`, abstracting `aiHost.startGame`) the AI overlay is attached,
the snapshot is saved, then the puzzle-start message is broadcast. -/
def handleTurtleSoupPuzzleSelected (r : Room) (now : Nat)
    (senderName initiator : String) (puzzle : Option Puzzle) (startOk : Bool) :
    Room × List Effect :=
  if !r.turtleSoupActive || r.turtleSoupInitiator ≠ some senderName then
    (r, [.sendSelf (.errorMsg "只有海龟汤发起人可以选择题目")])
  else
    match puzzle with
    | none => (r, [.sendSelf (.errorMsg "题目加载失败")])
    | some p =>
      if !startOk then
        (r, [.sendSelf (.errorMsg "启动AI主持模式失败")])
      else
        let r' : Room :=
          { r with
            aiHostActive := true
            aiHostInitiator := some initiator
            aiHostParticipants := r.turtleSoupParticipants
            currentPuzzle := some p }
        (r', [.save (saveGameState r' now),
              .broadcast (.puzzleStart initiator r.turtleSoupParticipants p)])

/-! ### The RateLimiter Durable Object -/

/-- Model of `RateLimiter.fetch(request)`: raise `nextAllowedTime` to at least the
current time, advance it by one second on a POST (an action), and reply
with `max(0, nextAllowedTime - now - 30)` — 30 seconds of grace.  Returns
the new `nextAllowedTime` and the replied cooldown.  Times are seconds
(`Date.now() / 1000`), modelled as rationals. -/
def rateLimiterFetch (isPost : Bool) (now nextAllowedTime : ℚ) : ℚ × ℚ :=
  let next1 := max now nextAllowedTime
  let next2 := if isPost then next1 + 1 else next1
  (next2, max 0 (next2 - now - 30))

/-- The successive `nextAllowedTime` values along a sequence of calls,
each call being a method flag (`true` = POST) and an observation time. -/
def rateLimiterStates (nextAllowedTime : ℚ) : List (Bool × ℚ) → List ℚ
  | [] => [nextAllowedTime]
  | c :: cs =>
    nextAllowedTime :: rateLimiterStates (rateLimiterFetch c.1 c.2 nextAllowedTime).1 cs

/-! ### Session registry, user setup and broadcast -/

/-- One WebSocket session as tracked in the `sessions` map. -/
structure Session where
  name : Option String
  blockedMessages : List String
  quit : Bool
deriving DecidableEq, Repr

/-- The session registry: a fresh-id counter and the sessions in insertion
order, each tagged with a stable identifier. -/
structure ChatSys where
  nextId : Nat
  sessions : List (Nat × Session)
deriving DecidableEq, Repr

/-- The registry of a freshly constructed room: no sessions. -/
def emptySys : ChatSys := { nextId := 0, sessions := [] }

/-- Model of `Map.get` for the Nat-keyed session registry. -/
def mapGetNat {β : Type} (k : Nat) : List (Nat × β) → Option β
  | [] => none
  | (k', v) :: rest => if k' = k then some v else mapGetNat k rest

/-- The per-session effect of one `broadcast(message)` iteration step: a
session with a completed handshake is left alone (it is sent the message),
a pre-handshake session gets the message queued. -/
def btrans (message : String) (p : Nat × Session) : Nat × Session :=
  if p.2.name.isSome then p
  else (p.1, { p.2 with blockedMessages := p.2.blockedMessages ++ [message] })

/-- Model of `broadcast(message)`: sessions with a completed handshake receive the
message; sessions still in the handshake get it appended to their blocked
queue.  Returns the new registry and the deliveries in iteration order.
(Send failures, which evict already-handshaken sessions and trigger
deferred quit notices, are not modelled: they can only affect sessions
whose handshake has completed.) -/
def sysBroadcast (sys : ChatSys) (message : String) :
    ChatSys × List (Nat × String) :=
  ({ sys with sessions := sys.sessions.map (btrans message) },
   sys.sessions.filterMap (fun p =>
     if p.2.name.isSome then some (p.1, message) else none))

/-- Model of `handleSession(webSocket, ip)`: a new session starts with no name and
a blocked queue pre-filled with one `joined` record per already-named
session (the roster) followed by the stored message backlog in
chronological order.  The stored backlog is a parameter of the event. -/
def sysJoin (sys : ChatSys) (storedBacklog : List String) :
    ChatSys × List (Nat × String) :=
  let roster := sys.sessions.filterMap (fun p =>
    p.2.name.map (fun n => "joined " ++ n))
  let fresh : Session := { name := none, blockedMessages := roster ++ storedBacklog, quit := false }
  ({ nextId := sys.nextId + 1, sessions := sys.sessions ++ [(sys.nextId, fresh)] }, [])

/-- Replace the entry with identifier `id`, keeping all others. -/
def strans (id : Nat) (s : Session) (p : Nat × Session) : Nat × Session :=
  if p.1 = id then (id, s) else p

/-- Replace the session with identifier `id`. -/
def sysSetSession (sys : ChatSys) (id : Nat) (s : Session) : ChatSys :=
  { sys with sessions := sys.sessions.map (strans id s) }

/-- Model of `handleUserSetup(webSocket, session, data)` at the registry level,
reached only for sessions whose handshake is still pending: the claimed
name (`data.name || 'anonymous'`) is truncated by `safeString(·, 32)`
(making the `length > 32` rejection branch unreachable), the session is
named, its blocked queue is flushed to it in order, the `joined` notice is
broadcast to every named session (now including this one), the game-state
sync is sent if requested while a game is running, and finally `ready` is
sent. -/
def sysHandshake (sys : ChatSys) (id : Nat) (rawName : String)
    (requestGameState gameRunning : Bool) : ChatSys × List (Nat × String) :=
  match mapGetNat id sys.sessions with
  | none => (sys, [])
  | some s =>
    if s.name.isSome then (sys, [])
    else
      let userName := safeString (jsOrString rawName "anonymous") 32
      let sys1 := sysSetSession sys id { s with name := some userName, blockedMessages := [] }
      let flush : List (Nat × String) := s.blockedMessages.map (fun m => (id, m))
      let afterJoin := sysBroadcast sys1 ("joined " ++ userName)
      let tail : List (Nat × String) :=
        (if requestGameState && gameRunning then [(id, "gameStateSync")] else []) ++
          [(id, "ready")]
      (afterJoin.1, flush ++ afterJoin.2 ++ tail)

/-- Model of `webSocketClose` / `webSocketError`: drop the session; a named session
is announced to the others with a `quit` broadcast. -/
def sysLeave (sys : ChatSys) (id : Nat) : ChatSys × List (Nat × String) :=
  match mapGetNat id sys.sessions with
  | none => (sys, [])
  | some s =>
    let sys1 : ChatSys := { sys with sessions := sys.sessions.filter (fun p => p.1 ≠ id) }
    match s.name with
    | some n => sysBroadcast sys1 ("quit " ++ n)
    | none => (sys1, [])

/-- An external event hitting the session registry. -/
inductive SEvent where
  | join (storedBacklog : List String)
  | handshake (id : Nat) (rawName : String) (requestGameState gameRunning : Bool)
  | broadcastEv (message : String)
  | leave (id : Nat)
deriving DecidableEq, Repr

/-- One step of the registry under an external event. -/
def sysStep (sys : ChatSys) : SEvent → ChatSys × List (Nat × String)
  | .join backlog => sysJoin sys backlog
  | .handshake id rawName rq g => sysHandshake sys id rawName rq g
  | .broadcastEv message => sysBroadcast sys message
  | .leave id => sysLeave sys id

/-- Run a sequence of events, accumulating all deliveries in order. -/
def sysRun (sys : ChatSys) : List SEvent → ChatSys × List (Nat × String)
  | [] => (sys, [])
  | e :: es =>
    let step := sysStep sys e
    let rest := sysRun step.1 es
    (rest.1, step.2 ++ rest.2)

/-- The per-session core of `handleUserSetup`, used for the identity-claim
claims: the claimed name falls back to `anonymous` when falsy, is
truncated by `safeString(·, 32)`, the dead `length > 32` branch would
reject and close, and otherwise the session is named, its queue flushed,
the join announced and `ready` sent. -/
inductive SetupEffect where
  | sendSelfMsg (m : String)
  | closeConn
  | broadcastJoined (name : String)
deriving DecidableEq, Repr

/-- Model of `handleUserSetup` restricted to one session. -/
def handleUserSetup (s : Session) (rawName : String) : Session × List SetupEffect :=
  let userName := safeString (jsOrString rawName "anonymous") 32
  if userName.length > 32 then
    (s, [.sendSelfMsg "Name too long", .closeConn])
  else
    ({ s with name := some userName, blockedMessages := [] },
     s.blockedMessages.map SetupEffect.sendSelfMsg ++
       [.broadcastJoined userName, .sendSelfMsg "ready"])

/-! ### AIHost game-logic adjustment and progress smoothing -/

/-- The numeric fields of a parsed narration-collaborator reply that
`applyGameLogic` adjusts. -/
structure LLMResponse where
  answer : String
  score : Int
  progress : Int
deriving DecidableEq, Repr

/-- The scoring/progress constants of `buildAIConfig` that
`applyGameLogic` reads; all are environment-overridable, so they are kept
abstract here (defaults: 2, -1, 10, 15, -5). -/
structure AIHostConfig where
  creativityBonus : Int
  repetitionPenalty : Int
  keywordMatchBonus : Int
  directQuestionBonus : Int
  wrongDirectionPenalty : Int
deriving DecidableEq, Repr

/-- Model of `AIHost.smoothProgress(previousProgress, newProgress)`: the change is
clamped into `[-10, 15]` and the result into `[0, 100]`. -/
def smoothProgress (previousProgress newProgress : Int) : Int :=
  let change := max (-10) (min 15 (newProgress - previousProgress))
  max 0 (min 100 (previousProgress + change))

/-- Model of `AIHost.isCreativeQuestion`. -/
def isCreativeQuestion (question : String) : Bool :=
  let questionLower := question.toLower
  ["为什么", "如何", "什么原因", "怎么回事", "背后的原因"].any
    (fun k => strContains questionLower k)

/-- Model of `AIHost.hasKeywordMatch` against the active puzzle's keywords. -/
def hasKeywordMatch (keywords : List String) (question : String) : Bool :=
  let questionLower := question.toLower
  keywords.any (fun k => strContains questionLower k.toLower)

/-- Model of `AIHost.isDirectQuestion`: the five regular expressions reduce to
substring or suffix tests. -/
def isDirectQuestion (question : String) : Bool :=
  strContains question "是不是" || strContains question "是否" ||
    question.endsWith "吗" || question.endsWith "吗？" ||
    strContains question "有没有" || strContains question "会不会"

/-- Model of `AIHost.applyGameLogic(response, question, isDuplicate)` restricted to
its score/progress arithmetic (the auto-hint attachment does not change
the progress): penalties and bonuses are applied with their local clamps,
and the final progress is smoothed against the session's previous
progress. -/
def applyGameLogicAdjust (cfg : AIHostConfig) (keywords : List String)
    (resp : LLMResponse) (question : String) (isDuplicate : Bool) : LLMResponse :=
  let a1 :=
    if isDuplicate then
      { resp with score := max 1 (resp.score + cfg.repetitionPenalty) }
    else resp
  let a2 :=
    if isCreativeQuestion question then
      { a1 with score := min 10 (a1.score + cfg.creativityBonus) }
    else a1
  let a3 :=
    if hasKeywordMatch keywords question then
      { a2 with progress := min 100 (a2.progress + cfg.keywordMatchBonus) }
    else a2
  let a4 :=
    if isDirectQuestion question then
      { a3 with progress := min 100 (a3.progress + cfg.directQuestionBonus) }
    else a3
  if a4.answer = "没有关系" && decide (a4.score > 6) then
    { a4 with progress := max 0 (a4.progress + cfg.wrongDirectionPenalty) }
  else a4

/-- The full adjustment: the bonus/penalty pipeline followed by
`smoothProgress` against the session's previous progress. -/
def applyGameLogic (cfg : AIHostConfig) (sessionProgress : Int)
    (keywords : List String) (resp : LLMResponse) (question : String)
    (isDuplicate : Bool) : LLMResponse :=
  let a5 := applyGameLogicAdjust cfg keywords resp question isDuplicate
  { a5 with progress := smoothProgress sessionProgress a5.progress }

/-- Model of `AIHost.createFallbackResponse(question)`: the deterministic response
substituted when the collaborator fails; its progress is the session's
previous progress minus 5, floored at 0. -/
def createFallbackResponse (sessionProgress : Int) : LLMResponse :=
  { answer := "没有关系", score := 3, progress := max 0 (sessionProgress - 5) }

/-! ### Derived notions used to state the claims -/

/-- Is this effect the `turtleSoupStart` broadcast, i.e. the observable
PendingConfirmation-to-Active transition? -/
def isStartBroadcast : Effect → Bool
  | .broadcast (.tsStart _ _) => true
  | _ => false

/-- How many game-start broadcasts an effect list contains. -/
def countStarts (effs : List Effect) : Nat := effs.countP (fun e => isStartBroadcast e)

/-- Process a sequence of confirmation replies `(user, confirmed)` all
addressed to the same initiator's ticket, accumulating effects. -/
def runConfirmations (r : Room) (now : Nat) (initiator : String) :
    List (String × Bool) → Room × List Effect
  | [] => (r, [])
  | m :: ms =>
    let step := handleTurtleSoupConfirmation r now initiator m.1 m.2
    let rest := runConfirmations step.1 now initiator ms
    (rest.1, step.2 ++ rest.2)

/-- Is this effect a game-state snapshot write? -/
def isSave : Effect → Bool
  | .save _ => true
  | _ => false

/-- Is this effect a broadcast? -/
def isBroadcast : Effect → Bool
  | .broadcast _ => true
  | _ => false

/-- Scans an effect list with a has-a-save-occurred flag, checking that
every broadcast is preceded by some snapshot write. -/
def broadcastsCoveredFrom : List Effect → Bool → Bool
  | [], _ => true
  | .save _ :: rest, _ => broadcastsCoveredFrom rest true
  | .broadcast _ :: rest, seen => seen && broadcastsCoveredFrom rest seen
  | _ :: rest, seen => broadcastsCoveredFrom rest seen

/-- Every broadcast in the list is preceded by a snapshot write. -/
def everyBroadcastAfterSave (effs : List Effect) : Bool :=
  broadcastsCoveredFrom effs false

/-- Registry well-formedness: session identifiers are pairwise distinct
and below the fresh-id counter.  This holds for every reachable registry
(identifiers are handed out by the counter and never reused). -/
def SysWF (sys : ChatSys) : Prop :=
  (sys.sessions.map Prod.fst).Nodup ∧ ∀ p ∈ sys.sessions, p.1 < sys.nextId

/-- Predicate stating that `ds` contains no delivery addressed to a session that has not
completed its handshake, nor to any identifier not yet handed out. -/
def Unseen (sys : ChatSys) (ds : List (Nat × String)) : Prop :=
  (∀ p ∈ sys.sessions, p.2.name = none → ∀ m, (p.1, m) ∉ ds) ∧
    (∀ id, sys.nextId ≤ id → ∀ m, (id, m) ∉ ds)

/-! ### Association-list lemmas -/

theorem mapGet_mapSet_self {β : Type} (k : String) (v : β) (l : List (String × β)) :
    mapGet k (mapSet k v l) = some v := by
  induction l with
  | nil => simp [mapGet, mapSet]
  | cons p rest ih =>
    obtain ⟨a, b⟩ := p
    by_cases h : a = k
    · simp [mapGet, mapSet, h]
    · simp [mapGet, mapSet, h, ih]

theorem mapGet_mapSet_ne {β : Type} {k k' : String} (h : k ≠ k') (v : β)
    (l : List (String × β)) : mapGet k' (mapSet k v l) = mapGet k' l := by
  induction l with
  | nil => simp [mapGet, mapSet, h]
  | cons p rest ih =>
    obtain ⟨a, b⟩ := p
    by_cases hp : a = k
    · subst hp
      have : a ≠ k' := fun hh => h (hh ▸ rfl)
      simp [mapGet, mapSet, this]
    · by_cases hp' : a = k'
      · simp [mapGet, mapSet, hp, hp', Ne.symm h]
      · simp [mapGet, mapSet, hp, hp', ih]

theorem mapGet_mapDelete_ne {β : Type} {k k' : String} (h : k ≠ k')
    (l : List (String × β)) : mapGet k' (mapDelete k l) = mapGet k' l := by
  induction l with
  | nil => rfl
  | cons p rest ih =>
    obtain ⟨a, b⟩ := p
    by_cases hp : a = k
    · subst hp
      have hp' : a ≠ k' := h
      simp [mapDelete, mapGet, hp']
    · by_cases hp' : a = k'
      · simp [mapDelete, mapGet, hp, hp', Ne.symm h]
      · simp [mapDelete, mapGet, hp, hp', ih]

theorem mapKeys_cons {β : Type} (p : String × β) (l : List (String × β)) :
    mapKeys (p :: l) = p.1 :: mapKeys l := rfl

theorem mem_mapKeys_of_mapGet {β : Type} {k : String} {l : List (String × β)} {v : β}
    (h : mapGet k l = some v) : k ∈ mapKeys l := by
  induction l with
  | nil => simp [mapGet] at h
  | cons p rest ih =>
    obtain ⟨a, b⟩ := p
    by_cases hp : a = k
    · rw [mapKeys_cons]
      exact List.mem_cons.mpr (Or.inl hp.symm)
    · simp only [mapGet, if_neg hp] at h
      rw [mapKeys_cons]
      exact List.mem_cons.mpr (Or.inr (ih h))

theorem mapGet_eq_none_of_not_mem {β : Type} {k : String} {l : List (String × β)}
    (h : k ∉ mapKeys l) : mapGet k l = none := by
  induction l with
  | nil => rfl
  | cons p rest ih =>
    rw [mapKeys_cons] at h
    have hp : p.1 ≠ k := fun hk => h (List.mem_cons.mpr (Or.inl hk.symm))
    have hrest : k ∉ mapKeys rest := fun hk => h (List.mem_cons.mpr (Or.inr hk))
    obtain ⟨a, b⟩ := p
    simp only [mapGet, if_neg hp]
    exact ih hrest

theorem mapGet_mapDelete_self {β : Type} {k : String} {l : List (String × β)}
    (h : (mapKeys l).Nodup) : mapGet k (mapDelete k l) = none := by
  induction l with
  | nil => rfl
  | cons p rest ih =>
    rw [mapKeys_cons] at h
    rcases List.nodup_cons.mp h with ⟨hnot, hrest⟩
    obtain ⟨a, b⟩ := p
    by_cases hp : a = k
    · simp only [mapDelete, if_pos hp]
      apply mapGet_eq_none_of_not_mem
      rw [← hp]
      exact hnot
    · simp only [mapDelete, if_neg hp, mapGet, if_neg hp]
      exact ih hrest

theorem mapKeys_mapSet_of_mem {β : Type} {k : String} (v : β)
    {l : List (String × β)} (h : k ∈ mapKeys l) :
    mapKeys (mapSet k v l) = mapKeys l := by
  induction l with
  | nil => simp [mapKeys] at h
  | cons p rest ih =>
    obtain ⟨a, b⟩ := p
    by_cases hp : a = k
    · simp [mapSet, mapKeys, hp]
    · rw [mapKeys_cons] at h
      rcases List.mem_cons.mp h with h1 | h2
      · exact absurd h1.symm hp
      · simp only [mapSet, if_neg hp, mapKeys_cons, ih h2]

theorem mapKeys_mapSet_of_not_mem {β : Type} {k : String} (v : β)
    {l : List (String × β)} (h : k ∉ mapKeys l) :
    mapKeys (mapSet k v l) = mapKeys l ++ [k] := by
  induction l with
  | nil => rfl
  | cons p rest ih =>
    rw [mapKeys_cons] at h
    have hp : p.1 ≠ k := fun hk => h (List.mem_cons.mpr (Or.inl hk.symm))
    have hrest : k ∉ mapKeys rest := fun hk => h (List.mem_cons.mpr (Or.inr hk))
    obtain ⟨a, b⟩ := p
    simp only [mapSet, if_neg hp, mapKeys_cons, ih hrest, List.cons_append]

theorem nodup_mapKeys_mapSet {β : Type} (k : String) (v : β)
    {l : List (String × β)} (h : (mapKeys l).Nodup) :
    (mapKeys (mapSet k v l)).Nodup := by
  by_cases hm : k ∈ mapKeys l
  · rw [mapKeys_mapSet_of_mem v hm]; exact h
  · rw [mapKeys_mapSet_of_not_mem v hm]
    rw [List.nodup_append]
    exact ⟨h, List.nodup_singleton k, by simpa using hm⟩

theorem mapKeys_mapDelete_sublist {β : Type} (k : String) (l : List (String × β)) :
    (mapKeys (mapDelete k l)).Sublist (mapKeys l) := by
  induction l with
  | nil => simp [mapDelete]
  | cons p rest ih =>
    obtain ⟨a, b⟩ := p
    by_cases hp : a = k
    · simp only [mapDelete, if_pos hp, mapKeys_cons]
      exact List.sublist_cons_of_sublist a (List.Sublist.refl _)
    · simp only [mapDelete, if_neg hp, mapKeys_cons]
      exact ih.cons₂ a

theorem nodup_mapKeys_mapDelete {β : Type} (k : String) {l : List (String × β)}
    (h : (mapKeys l).Nodup) : (mapKeys (mapDelete k l)).Nodup :=
  (mapKeys_mapDelete_sublist k l).nodup h

theorem mapGet_foldl_zero (participants : List String) (m₀ : List (String × UserScore))
    (k : String) :
    mapGet k (participants.foldl (fun m p => mapSet p ⟨0, 0⟩ m) m₀) =
      if k ∈ participants then some ⟨0, 0⟩ else mapGet k m₀ := by
  induction participants generalizing m₀ with
  | nil => simp
  | cons p rest ih =>
    rw [List.foldl_cons, ih]
    by_cases hk : k ∈ rest
    · simp [hk, List.mem_cons]
    · rw [if_neg hk]
      by_cases hp : p = k
      · subst hp
        rw [mapGet_mapSet_self]
        simp [List.mem_cons]
      · have hkp : ¬k = p := fun hh => hp hh.symm
        rw [mapGet_mapSet_ne hp]
        simp [List.mem_cons, hk, hkp]

/-! ### Generic facts about the embedded operations -/

theorem length_safeString_le (value : String) (maxLength : Nat) :
    (safeString value maxLength).length ≤ maxLength := by
  unfold safeString
  split
  · show (value.data.take maxLength).length ≤ maxLength
    rw [List.length_take]
    omega
  · omega

theorem safeString_eq_of_le {value : String} {maxLength : Nat}
    (h : value.length ≤ maxLength) : safeString value maxLength = value := by
  unfold safeString
  rw [if_neg (by omega)]

theorem length_filter_ne {P : List String} {I : String} (hmem : I ∈ P)
    (hnodup : P.Nodup) :
    (P.filter (fun u' => u' ≠ I)).length = P.length - 1 := by
  induction P with
  | nil => simp at hmem
  | cons a rest ih =>
    rcases List.nodup_cons.mp hnodup with ⟨ha, hrest⟩
    by_cases hai : a = I
    · subst hai
      have hkeep : rest.filter (fun u' => u' ≠ a) = rest := by
        apply List.filter_eq_self.mpr
        intro x hx
        simp only [ne_eq, decide_eq_true_eq]
        exact fun hxa => ha (hxa ▸ hx)
      simp [List.filter_cons, hkeep]
      intro x hx
      exact fun hxa => ha (hxa ▸ hx)
    · have h2 : I ∈ rest := by
        rcases List.mem_cons.mp hmem with h1 | h2
        · exact absurd h1.symm hai
        · exact h2
      have hlen := ih h2 hrest
      have hpos : 1 ≤ rest.length := List.length_pos.mpr (List.ne_nil_of_mem h2)
      have hcond : (fun u' => decide (u' ≠ I)) a = true := by simpa using hai
      rw [List.filter_cons, if_pos hcond, List.length_cons, List.length_cons, hlen]
      omega

theorem mapSet_eq_append_of_not_mem {β : Type} {k : String} (v : β)
    {l : List (String × β)} (h : k ∉ mapKeys l) : mapSet k v l = l ++ [(k, v)] := by
  induction l with
  | nil => rfl
  | cons p rest ih =>
    rw [mapKeys_cons] at h
    have hp : p.1 ≠ k := fun hk => h (List.mem_cons.mpr (Or.inl hk.symm))
    have hrest : k ∉ mapKeys rest := fun hk => h (List.mem_cons.mpr (Or.inr hk))
    obtain ⟨a, b⟩ := p
    simp only [mapSet, if_neg hp, ih hrest, List.cons_append]

theorem foldl_mapSet_eq_append {β : Type} (l : List (String × β)) :
    ∀ acc : List (String × β), (∀ x ∈ mapKeys l, x ∉ mapKeys acc) →
      (mapKeys l).Nodup →
      l.foldl (fun m kv => mapSet kv.1 kv.2 m) acc = acc ++ l := by
  induction l with
  | nil => intro acc _ _; simp
  | cons a l ih =>
    intro acc hdisj hnodup
    rw [mapKeys_cons] at hnodup
    rcases List.nodup_cons.mp hnodup with ⟨hhead, htail⟩
    have ha : a.1 ∉ mapKeys acc :=
      hdisj a.1 (by rw [mapKeys_cons]; exact List.mem_cons_self _ _)
    rw [List.foldl_cons, mapSet_eq_append_of_not_mem a.2 ha,
      ih (acc ++ [a]) ?_ htail]
    · simp
    · intro x hx
      have hxacc : x ∉ mapKeys acc :=
        hdisj x (by rw [mapKeys_cons]; exact List.mem_cons.mpr (Or.inr hx))
      have hxa : x ≠ a.1 := fun hxa => hhead (hxa ▸ hx)
      unfold mapKeys
      rw [List.map_append]
      intro hmem
      rcases List.mem_append.mp hmem with h1 | h2
      · exact hxacc h1
      · simp at h2
        exact hxa h2

theorem mapFromEntries_eq_self {β : Type} {l : List (String × β)}
    (h : (mapKeys l).Nodup) : mapFromEntries l = l := by
  unfold mapFromEntries
  rw [foldl_mapSet_eq_append l [] (by intro x _; simp [mapKeys]) h]
  simp

theorem jsOrNullString_eq {v : Option String} (h : v ≠ some "") :
    jsOrNullString v = v := by
  cases v with
  | none => rfl
  | some s =>
    show (if s = "" then none else some s) = some s
    rw [if_neg]
    intro hs
    exact h (by rw [hs])

theorem jsOrZero_eq (n : Nat) : jsOrZero n = n := by
  unfold jsOrZero
  split <;> omega

/-! ### Claim C6 — Rate Limiter consume semantics and monotonicity -/

theorem rateLimiterFetch_next_mono (isPost : Bool) (now next : ℚ) :
    next ≤ (rateLimiterFetch isPost now next).1 := by
  have h := le_max_right now next
  cases isPost
  · exact h
  · show next ≤ max now next + 1
    linarith

theorem rateLimiterStates_cons (n : ℚ) (cs : List (Bool × ℚ)) :
    ∃ t, rateLimiterStates n cs = n :: t := by
  cases cs <;> exact ⟨_, rfl⟩

/-- C6: on a consume (POST) call the rate limiter first raises
`nextAllowedTime` to at least the current time, then advances it by
exactly one unit, and replies `max 0 (nextAllowedTime - now - grace)`
computed from the updated value; across any call sequence the successive
`nextAllowedTime` values are monotonically non-decreasing. -/
theorem rateLimiter_consume_correct :
    (∀ now next : ℚ,
        (rateLimiterFetch true now next).1 = max now next + 1 ∧
        now ≤ (rateLimiterFetch true now next).1 ∧
        (rateLimiterFetch true now next).2 =
          max 0 ((rateLimiterFetch true now next).1 - now - 30)) ∧
    (∀ (next : ℚ) (calls : List (Bool × ℚ)),
        List.Chain' (· ≤ ·) (rateLimiterStates next calls)) := by
  constructor
  · intro now next
    refine ⟨rfl, ?_, rfl⟩
    show now ≤ max now next + 1
    have := le_max_left now next
    linarith
  · intro next calls
    induction calls generalizing next with
    | nil => simp [rateLimiterStates]
    | cons c cs ih =>
      obtain ⟨t, ht⟩ := rateLimiterStates_cons (rateLimiterFetch c.1 c.2 next).1 cs
      rw [rateLimiterStates, ht]
      rw [List.chain'_cons]
      exact ⟨rateLimiterFetch_next_mono c.1 c.2 next, ht ▸ ih _⟩

/-! ### Claim C10 — AI-overlay progress smoothing bounds -/

theorem smoothProgress_bounds (prev newP : Int) (h0 : 0 ≤ prev) (h100 : prev ≤ 100) :
    0 ≤ smoothProgress prev newP ∧ smoothProgress prev newP ≤ 100 ∧
      -10 ≤ smoothProgress prev newP - prev ∧ smoothProgress prev newP - prev ≤ 15 := by
  unfold smoothProgress
  simp only [Int.max_def, Int.min_def]
  split_ifs <;> omega

/-- C10: every progress value produced by `applyGameLogic` (and by the
fallback response) stays within `[0, 100]` and differs from the session's
previous progress by at most `+15` and at least `-10`, whatever progress
the narration collaborator reported. -/
theorem aiHost_progress_smoothing (cfg : AIHostConfig) (prev : Int)
    (keywords : List String) (resp : LLMResponse) (question : String)
    (isDuplicate : Bool) (h0 : 0 ≤ prev) (h100 : prev ≤ 100) :
    (0 ≤ (applyGameLogic cfg prev keywords resp question isDuplicate).progress ∧
      (applyGameLogic cfg prev keywords resp question isDuplicate).progress ≤ 100 ∧
      -10 ≤ (applyGameLogic cfg prev keywords resp question isDuplicate).progress - prev ∧
      (applyGameLogic cfg prev keywords resp question isDuplicate).progress - prev ≤ 15) ∧
    (0 ≤ (createFallbackResponse prev).progress ∧
      (createFallbackResponse prev).progress ≤ 100 ∧
      -10 ≤ (createFallbackResponse prev).progress - prev ∧
      (createFallbackResponse prev).progress - prev ≤ 15) := by
  constructor
  · have hmain : (applyGameLogic cfg prev keywords resp question isDuplicate).progress =
        smoothProgress prev
          (applyGameLogicAdjust cfg keywords resp question isDuplicate).progress := rfl
    rw [hmain]
    exact smoothProgress_bounds prev _ h0 h100
  · unfold createFallbackResponse
    simp only [Int.max_def]
    split_ifs <;> constructor <;> omega

/-- Witness for C10 at a concrete out-of-range collaborator progress. -/
theorem aiHost_progress_smoothing_witness :
    (0 ≤ (applyGameLogic ⟨2, -1, 10, 15, -5⟩ 50 [] ⟨"是", 5, 400⟩ "q" false).progress ∧
      (applyGameLogic ⟨2, -1, 10, 15, -5⟩ 50 [] ⟨"是", 5, 400⟩ "q" false).progress ≤ 100 ∧
      -10 ≤ (applyGameLogic ⟨2, -1, 10, 15, -5⟩ 50 [] ⟨"是", 5, 400⟩ "q" false).progress - 50 ∧
      (applyGameLogic ⟨2, -1, 10, 15, -5⟩ 50 [] ⟨"是", 5, 400⟩ "q" false).progress - 50 ≤ 15) ∧
    (0 ≤ (createFallbackResponse 50).progress ∧
      (createFallbackResponse 50).progress ≤ 100 ∧
      -10 ≤ (createFallbackResponse 50).progress - 50 ∧
      (createFallbackResponse 50).progress - 50 ≤ 15) :=
  aiHost_progress_smoothing ⟨2, -1, 10, 15, -5⟩ 50 [] ⟨"是", 5, 400⟩ "q" false
    (by decide) (by decide)

/-! ### Claim C8 — identity-claim length handling -/

/-- C8 counterexample: a 33-character identity claim is neither rejected
nor does it close the connection; it is truncated to 32 characters and
registered, contradicting the claimed reject-and-close behaviour. -/
theorem claim8_counterexample :
    SetupEffect.closeConn ∉
      (handleUserSetup ⟨none, [], false⟩ "aaaaaaaaaaaaaaaaaaaaaaaaaaaaaaaaa").2 ∧
    (handleUserSetup ⟨none, [], false⟩ "aaaaaaaaaaaaaaaaaaaaaaaaaaaaaaaaa").1.name =
      some "aaaaaaaaaaaaaaaaaaaaaaaaaaaaaaaa" := by decide

/-- C8 (amended): every identity claim is registered as
`safeString(name || 'anonymous', 32)`, which is at most 32 characters
long, so names of at most 32 characters are registered unchanged and no
claim is ever rejected: the reject-and-close branch is unreachable. -/
theorem claim8_amended_truncate_and_register (s : Session) (rawName : String) :
    (handleUserSetup s rawName).1.name =
      some (safeString (jsOrString rawName "anonymous") 32) ∧
    SetupEffect.closeConn ∉ (handleUserSetup s rawName).2 ∧
    (safeString (jsOrString rawName "anonymous") 32).length ≤ 32 := by
  have hle := length_safeString_le (jsOrString rawName "anonymous") 32
  unfold handleUserSetup
  rw [if_neg (by omega)]
  refine ⟨rfl, ?_, hle⟩
  intro hmem
  simp [List.mem_append, List.mem_map] at hmem

/-- Witness for C8 (amended) at a concrete short name. -/
theorem claim8_amended_witness :
    (handleUserSetup ⟨none, [], false⟩ "bob").1.name =
        some (safeString (jsOrString "bob" "anonymous") 32) ∧
      SetupEffect.closeConn ∉ (handleUserSetup ⟨none, [], false⟩ "bob").2 ∧
      (safeString (jsOrString "bob" "anonymous") 32).length ≤ 32 :=
  claim8_amended_truncate_and_register ⟨none, [], false⟩ "bob"

/-! ### Claim C3 — duplicate confirmation replies -/

/-- A room in the default idle state except for the given pending
confirmation tickets. -/
def roomWithPending (pending : List (String × Ticket)) : Room :=
  { initializeDefaultGameState with pendingConfirmations := pending }

/-- C3 counterexample: participant `b` has already accepted initiator
`i`'s ticket; `b`'s second reply — a decline — is not ignored: it changes
the state (the ticket is discarded) and broadcasts a cancellation. -/
theorem claim3_counterexample :
    (handleTurtleSoupConfirmation
        (roomWithPending [("i", ⟨["b"], ["i", "a", "b"]⟩)]) 0 "i" "b" false).1 ≠
      roomWithPending [("i", ⟨["b"], ["i", "a", "b"]⟩)] ∧
    (handleTurtleSoupConfirmation
        (roomWithPending [("i", ⟨["b"], ["i", "a", "b"]⟩)]) 0 "i" "b" false).2 ≠
      ([] : List Effect) := by decide

/-- C3 (amended): a second accept from a participant who has already
accepted the same ticket is ignored — no state change and no broadcast;
but a decline is never ignored while the ticket is pending: even from a
participant who has already accepted, it discards the ticket and
broadcasts the cancellation. -/
theorem claim3_amended_second_replies :
    (∀ (r : Room) (now : Nat) (I u : String) (cu P : List String),
        mapGet I r.pendingConfirmations = some ⟨cu, P⟩ → u ∈ cu →
        handleTurtleSoupConfirmation r now I u true = (r, [])) ∧
    (∀ (r : Room) (now : Nat) (I u : String) (t : Ticket),
        mapGet I r.pendingConfirmations = some t →
        (handleTurtleSoupConfirmation r now I u false).1 =
          { r with pendingConfirmations := mapDelete I r.pendingConfirmations } ∧
        (handleTurtleSoupConfirmation r now I u false).2 =
          [Effect.broadcast (.tsConfirm I false u)]) := by
  constructor
  · intro r now I u cu P h hmem
    unfold handleTurtleSoupConfirmation
    rw [h]
    simp [hmem]
  · intro r now I u t h
    unfold handleTurtleSoupConfirmation
    rw [h]
    exact ⟨rfl, rfl⟩

/-- Witness for C3 (amended) at a concrete ticket: a duplicate accept is a
no-op. -/
theorem claim3_amended_witness :
    handleTurtleSoupConfirmation
        (roomWithPending [("i", ⟨["b"], ["i", "a", "b"]⟩)]) 0 "i" "b" true =
      (roomWithPending [("i", ⟨["b"], ["i", "a", "b"]⟩)], []) :=
  claim3_amended_second_replies.1 (roomWithPending [("i", ⟨["b"], ["i", "a", "b"]⟩)])
    0 "i" "b" ["b"] ["i", "a", "b"] (by decide) (by decide)

/-! ### Claim C7 — snapshot round trip -/

/-- C7 counterexample: a reachable active game whose initiator is the
empty string (the initiator field is copied from the client-supplied
request message) does not survive the snapshot round trip: the JS `||`
fallback in `restoreGameState` collapses the empty-string initiator to
`null`. -/
theorem claim7_counterexample :
    (handleTurtleSoupConfirmation
        (handleTurtleSoupRequest initializeDefaultGameState ["a"] "").1
        0 "" "a" true).1.turtleSoupActive = true ∧
    (restoreGameState (saveGameState
        (handleTurtleSoupConfirmation
          (handleTurtleSoupRequest initializeDefaultGameState ["a"] "").1
          0 "" "a" true).1 0)).turtleSoupInitiator ≠
      (handleTurtleSoupConfirmation
        (handleTurtleSoupRequest initializeDefaultGameState ["a"] "").1
        0 "" "a" true).1.turtleSoupInitiator := by decide

/-- C7 (amended): for every game state whose score map has no duplicate
keys (as maintained by `Map`) and whose initiator fields are not the empty
string, restoring the saved snapshot reproduces the state exactly, up to
the documented resets of the pending-confirmation map and the in-memory
timestamp; in particular mode flags, participants, turn index, puzzle and
scores always round-trip. -/
theorem claim7_amended_roundtrip (r : Room) (now : Nat)
    (hnodup : (mapKeys r.userScores).Nodup)
    (hts : r.turtleSoupInitiator ≠ some "")
    (hai : r.aiHostInitiator ≠ some "") :
    restoreGameState (saveGameState r now) =
      { r with pendingConfirmations := [], lastTimestamp := 0 } := by
  unfold restoreGameState saveGameState
  simp only [Bool.or_false, jsOrZero_eq, jsOrNullString_eq hts,
    jsOrNullString_eq hai, mapFromEntries_eq_self hnodup]

/-- Witness for C7 (amended) at a concrete mid-game state. -/
theorem claim7_amended_witness :
    restoreGameState (saveGameState
        { turtleSoupActive := true
          turtleSoupParticipants := ["a", "b"]
          turtleSoupInitiator := some "a"
          currentTurnIndex := 1
          currentPuzzle := none
          aiHostActive := false
          aiHostInitiator := none
          aiHostParticipants := []
          userScores := [("a", ⟨3, 1⟩), ("b", ⟨5, 2⟩)]
          pendingConfirmations := []
          lastTimestamp := 9 } 42) =
      { turtleSoupActive := true
        turtleSoupParticipants := ["a", "b"]
        turtleSoupInitiator := some "a"
        currentTurnIndex := 1
        currentPuzzle := none
        aiHostActive := false
        aiHostInitiator := none
        aiHostParticipants := []
        userScores := [("a", ⟨3, 1⟩), ("b", ⟨5, 2⟩)]
        pendingConfirmations := []
        lastTimestamp := 0 } :=
  claim7_amended_roundtrip _ 42 (by decide) (by decide) (by decide)

theorem handleConf_none {r : Room} {I : String} (now : Nat) (u : String) (c : Bool)
    (h : mapGet I r.pendingConfirmations = none) :
    handleTurtleSoupConfirmation r now I u c = (r, []) := by
  unfold handleTurtleSoupConfirmation
  rw [h]

theorem startTurtleSoup_pending (r : Room) (now : Nat) (I : String) (P : List String) :
    (startTurtleSoup r now I P).1.pendingConfirmations = r.pendingConfirmations := rfl

theorem conf_eq_decline {r : Room} {I : String} {t : Ticket} (now : Nat) (u : String)
    (hmg : mapGet I r.pendingConfirmations = some t) :
    handleTurtleSoupConfirmation r now I u false =
      ({ r with pendingConfirmations := mapDelete I r.pendingConfirmations },
       [Effect.broadcast (.tsConfirm I false u)]) := by
  unfold handleTurtleSoupConfirmation
  rw [hmg]
  rfl

theorem conf_eq_dup {r : Room} {I u : String} {cu P : List String} (now : Nat)
    (hmg : mapGet I r.pendingConfirmations = some ⟨cu, P⟩) (hu : u ∈ cu) :
    handleTurtleSoupConfirmation r now I u true = (r, []) := by
  unfold handleTurtleSoupConfirmation
  rw [hmg]
  simp [hu]

theorem conf_eq_accept_nofire {r : Room} {I u : String} {cu P : List String} (now : Nat)
    (hmg : mapGet I r.pendingConfirmations = some ⟨cu, P⟩)
    (hu : u ∉ cu)
    (hcond : ¬((cu ++ [u]).length = (P.filter (fun u' => u' ≠ I)).length)) :
    handleTurtleSoupConfirmation r now I u true =
      ({ r with pendingConfirmations := mapSet I ⟨cu ++ [u], P⟩ r.pendingConfirmations },
       [Effect.broadcast (.tsConfirm I true u)]) := by
  unfold handleTurtleSoupConfirmation
  simp only [hmg, Bool.not_true, Bool.false_eq_true, if_false, if_neg hu, if_neg hcond]

theorem conf_eq_accept_fire {r : Room} {I u : String} {cu P : List String} (now : Nat)
    (hmg : mapGet I r.pendingConfirmations = some ⟨cu, P⟩)
    (hu : u ∉ cu)
    (hcond : (cu ++ [u]).length = (P.filter (fun u' => u' ≠ I)).length) :
    handleTurtleSoupConfirmation r now I u true =
      ({ (startTurtleSoup
            { r with pendingConfirmations := mapSet I ⟨cu ++ [u], P⟩ r.pendingConfirmations }
            now I P).1 with
          pendingConfirmations :=
            mapDelete I (mapSet I ⟨cu ++ [u], P⟩ r.pendingConfirmations) },
       [Effect.broadcast (.tsConfirm I true u)] ++
         (startTurtleSoup
            { r with pendingConfirmations := mapSet I ⟨cu ++ [u], P⟩ r.pendingConfirmations }
            now I P).2) := by
  unfold handleTurtleSoupConfirmation
  simp only [hmg, Bool.not_true, Bool.false_eq_true, if_false, if_neg hu, if_pos hcond]
  rfl


/-! ### Claim C9 — turn-index invariant -/

/-- C9 counterexample: in the Idle state produced by
`initializeDefaultGameState` the participant list is empty and the turn
index is 0, so `turnIndex < participants.length` fails. -/
theorem claim9_counterexample :
    ¬ (initializeDefaultGameState.currentTurnIndex <
        initializeDefaultGameState.turtleSoupParticipants.length) := by decide

/-- Auxiliary: the AI-host question processor never touches the base
turtle-soup fields. -/
theorem processAIHostQuestion_preserves (r : Room) (now : Nat) (ai : AIOutcome)
    (userId question : String) :
    (processAIHostQuestion r now ai userId question).1.currentTurnIndex =
        r.currentTurnIndex ∧
    (processAIHostQuestion r now ai userId question).1.turtleSoupParticipants =
        r.turtleSoupParticipants := by
  cases ai with
  | failure m => exact ⟨rfl, rfl⟩
  | crash => exact ⟨rfl, rfl⟩
  | ok fm solved =>
    unfold processAIHostQuestion
    by_cases h : solved <;> simp [h, endAIHostMode]

/-- No path of `handleTurtleSoupMessage` touches the participant list. -/
theorem handleTurtleSoupMessage_participants (r : Room) (pick : Nat)
    (sender msg : String) :
    (handleTurtleSoupMessage r pick sender msg).1.turtleSoupParticipants =
      r.turtleSoupParticipants := by
  by_cases h : r.turtleSoupParticipants[r.currentTurnIndex]? ≠ some sender
  · simp only [handleTurtleSoupMessage, if_pos h]
  · simp only [handleTurtleSoupMessage, if_neg h]

/-- No path of `handleTurtleSoupAIMessage` touches the participant list. -/
theorem handleTurtleSoupAIMessage_participants (r : Room) (now : Nat)
    (ai : AIOutcome) (sender msg : String) :
    (handleTurtleSoupAIMessage r now ai sender msg).1.turtleSoupParticipants =
      r.turtleSoupParticipants := by
  by_cases h : r.turtleSoupParticipants[r.currentTurnIndex]? ≠ some sender
  · simp only [handleTurtleSoupAIMessage, if_pos h]
  · simp only [handleTurtleSoupAIMessage, if_neg h]
    exact (processAIHostQuestion_preserves r now ai sender msg).2

/-- `handleTurtleSoupRequest` only touches the pending-confirmation map. -/
theorem handleTurtleSoupRequest_participants (r : Room)
    (onlineUsers : List String) (I : String) :
    (handleTurtleSoupRequest r onlineUsers I).1.turtleSoupParticipants =
      r.turtleSoupParticipants := by
  unfold handleTurtleSoupRequest
  split
  · rfl
  · split
    · rfl
    · rfl

/-- A confirmation reply that does not fire the start transition leaves
the participant list unchanged. -/
theorem handleConf_participants_of_no_start {r : Room} (now : Nat)
    (I u : String) (c : Bool)
    (hs : countStarts (handleTurtleSoupConfirmation r now I u c).2 = 0) :
    (handleTurtleSoupConfirmation r now I u c).1.turtleSoupParticipants =
      r.turtleSoupParticipants := by
  cases hmg : mapGet I r.pendingConfirmations with
  | none => rw [handleConf_none now u c hmg]
  | some t =>
    obtain ⟨cu, P⟩ := t
    cases c with
    | false => rw [conf_eq_decline now u hmg]
    | true =>
      by_cases hm : u ∈ cu
      · rw [conf_eq_dup now hmg hm]
      · by_cases hcond : (cu ++ [u]).length = (P.filter (fun u' => u' ≠ I)).length
        · exfalso
          rw [conf_eq_accept_fire now hmg hm hcond] at hs
          simp [countStarts, startTurtleSoup, isStartBroadcast, List.countP_cons] at hs
        · rw [conf_eq_accept_nofire now hmg hm hcond]

/-- The initiator-driven turn change only touches the turn index. -/
theorem handleTurtleSoupTurnChange_participants (r : Room) (sender : String)
    (idx : Nat) (np : Option String) :
    (handleTurtleSoupTurnChange r sender idx np).1.turtleSoupParticipants =
      r.turtleSoupParticipants := by
  unfold handleTurtleSoupTurnChange
  split
  · rfl
  · rfl

/-- Attaching the AI overlay copies the participant list into the AI-host
fields but never mutates it. -/
theorem handleTurtleSoupPuzzleSelected_participants (r : Room) (now : Nat)
    (sender initiator : String) (puzzle : Option Puzzle) (startOk : Bool) :
    (handleTurtleSoupPuzzleSelected r now sender initiator
      puzzle startOk).1.turtleSoupParticipants = r.turtleSoupParticipants := by
  unfold handleTurtleSoupPuzzleSelected
  split
  · rfl
  · cases puzzle with
    | none => rfl
    | some p =>
      by_cases h : startOk
      · simp [h]
      · simp [h]

/-- Tearing down the AI overlay never mutates the base participant list. -/
theorem endAIHostMode_participants (r : Room) (now : Nat) :
    (endAIHostMode r now).1.turtleSoupParticipants = r.turtleSoupParticipants := rfl

/-- No chat-message path — plain chat, either turn-advance path, or a
standalone AI-host question — touches the participant list. -/
theorem handleChatMessage_participants (r : Room) (now pick : Nat)
    (ai : AIOutcome) (sender msg : String) (tsm aihq : Bool) :
    (handleChatMessage r now pick ai sender msg tsm aihq).1.turtleSoupParticipants =
      r.turtleSoupParticipants := by
  simp only [handleChatMessage]
  by_cases hg : (safeString msg 256).length > 256
  · rw [if_pos hg]
  · rw [if_neg hg]
    by_cases h1 : (tsm && aihq && r.turtleSoupActive && r.aiHostActive) = true
    · rw [if_pos h1]
      exact handleTurtleSoupAIMessage_participants _ now ai sender _
    · rw [if_neg h1]
      by_cases h2 : (r.aiHostActive && !tsm) = true
      · rw [if_pos h2]
        exact (processAIHostQuestion_preserves _ now ai sender _).2
      · rw [if_neg h2]
        by_cases h3 : (tsm && r.turtleSoupActive && !r.aiHostActive) = true
        · rw [if_pos h3]
          exact handleTurtleSoupMessage_participants _ pick sender _
        · rw [if_neg h3]

/-- C9 (amended): the strict bound `turnIndex < participants.length` does
not hold in Idle — after initialization and after a game ends both are 0 —
but it does hold from game start on: `startTurtleSoup` sets index 0 below
a nonempty participant list and both turn-advance paths preserve the
bound, while the initiator-driven manual turn change stores the
client-supplied index without any bounds check.  The participant list is
mutated only by the Pending-to-Active start assignment and by game end
clearing it: every Active-preserving handler — game request,
confirmation replies that do not fire a start, every chat-message path
(plain chat, both turn advances, standalone AI questions), the manual
turn change, puzzle selection, and AI-overlay teardown — leaves it
unchanged. -/
theorem claim9_amended_turn_bound :
    (initializeDefaultGameState.currentTurnIndex = 0 ∧
      initializeDefaultGameState.turtleSoupParticipants = []) ∧
    (∀ (r : Room) (now : Nat), (endTurtleSoup r now).1.currentTurnIndex = 0 ∧
      (endTurtleSoup r now).1.turtleSoupParticipants = []) ∧
    (∀ (r : Room) (now : Nat) (I : String) (P : List String), P ≠ [] →
      (startTurtleSoup r now I P).1.currentTurnIndex < P.length) ∧
    (∀ (r : Room) (pick : Nat) (sender msg : String),
      r.currentTurnIndex < r.turtleSoupParticipants.length →
      (handleTurtleSoupMessage r pick sender msg).1.currentTurnIndex <
        (handleTurtleSoupMessage r pick sender msg).1.turtleSoupParticipants.length ∧
      (handleTurtleSoupMessage r pick sender msg).1.turtleSoupParticipants =
        r.turtleSoupParticipants) ∧
    (∀ (r : Room) (now : Nat) (ai : AIOutcome) (sender msg : String),
      r.currentTurnIndex < r.turtleSoupParticipants.length →
      (handleTurtleSoupAIMessage r now ai sender msg).1.currentTurnIndex <
        (handleTurtleSoupAIMessage r now ai sender msg).1.turtleSoupParticipants.length ∧
      (handleTurtleSoupAIMessage r now ai sender msg).1.turtleSoupParticipants =
        r.turtleSoupParticipants) ∧
    (∀ (r : Room) (sender : String) (idx : Nat) (np : Option String),
      r.turtleSoupActive = true → r.turtleSoupInitiator = some sender →
      (handleTurtleSoupTurnChange r sender idx np).1.currentTurnIndex = idx) ∧
    (∀ (r : Room) (onlineUsers : List String) (I : String),
      (handleTurtleSoupRequest r onlineUsers I).1.turtleSoupParticipants =
        r.turtleSoupParticipants) ∧
    (∀ (r : Room) (now : Nat) (I u : String) (c : Bool),
      countStarts (handleTurtleSoupConfirmation r now I u c).2 = 0 →
      (handleTurtleSoupConfirmation r now I u c).1.turtleSoupParticipants =
        r.turtleSoupParticipants) ∧
    (∀ (r : Room) (now pick : Nat) (ai : AIOutcome) (sender msg : String)
      (tsm aihq : Bool),
      (handleChatMessage r now pick ai sender msg tsm aihq).1.turtleSoupParticipants =
        r.turtleSoupParticipants) ∧
    (∀ (r : Room) (sender : String) (idx : Nat) (np : Option String),
      (handleTurtleSoupTurnChange r sender idx np).1.turtleSoupParticipants =
        r.turtleSoupParticipants) ∧
    (∀ (r : Room) (now : Nat) (sender initiator : String) (puzzle : Option Puzzle)
      (startOk : Bool),
      (handleTurtleSoupPuzzleSelected r now sender initiator
        puzzle startOk).1.turtleSoupParticipants = r.turtleSoupParticipants) ∧
    (∀ (r : Room) (now : Nat),
      (endAIHostMode r now).1.turtleSoupParticipants = r.turtleSoupParticipants) := by
  refine ⟨⟨rfl, rfl⟩, ?_, ?_, ?_, ?_, ?_,
    fun r onlineUsers I => handleTurtleSoupRequest_participants r onlineUsers I,
    fun r now I u c hs => handleConf_participants_of_no_start now I u c hs,
    fun r now pick ai sender msg tsm aihq =>
      handleChatMessage_participants r now pick ai sender msg tsm aihq,
    fun r sender idx np => handleTurtleSoupTurnChange_participants r sender idx np,
    fun r now sender initiator puzzle startOk =>
      handleTurtleSoupPuzzleSelected_participants r now sender initiator puzzle startOk,
    fun r now => endAIHostMode_participants r now⟩
  · intro r now
    unfold endTurtleSoup
    by_cases h : r.aiHostActive <;> simp [h, endAIHostMode]
  · intro r now I P hP
    exact List.length_pos.mpr hP
  · intro r pick sender msg hlt
    by_cases h : r.turtleSoupParticipants[r.currentTurnIndex]? ≠ some sender
    · simp only [handleTurtleSoupMessage, if_pos h]
      exact ⟨hlt, trivial⟩
    · have hpos : 0 < r.turtleSoupParticipants.length :=
        lt_of_le_of_lt (Nat.zero_le _) hlt
      simp only [handleTurtleSoupMessage, if_neg h]
      exact ⟨Nat.mod_lt _ hpos, trivial⟩
  · intro r now ai sender msg hlt
    by_cases h : r.turtleSoupParticipants[r.currentTurnIndex]? ≠ some sender
    · simp only [handleTurtleSoupAIMessage, if_pos h]
      exact ⟨hlt, trivial⟩
    · obtain ⟨hidx, hpart⟩ := processAIHostQuestion_preserves r now ai sender msg
      have hpos : 0 < r.turtleSoupParticipants.length :=
        lt_of_le_of_lt (Nat.zero_le _) hlt
      simp only [handleTurtleSoupAIMessage, if_neg h]
      refine ⟨?_, hpart⟩
      rw [hpart]
      exact Nat.mod_lt _ hpos
  · intro r sender idx np h1 h2
    unfold handleTurtleSoupTurnChange
    rw [if_neg]
    simp [h1, h2]

/-- Witness for C9 (amended): starting a game with one participant puts
the turn index strictly below the participant count. -/
theorem claim9_amended_witness :
    (startTurtleSoup initializeDefaultGameState 0 "i" ["a"]).1.currentTurnIndex <
      (["a"] : List String).length :=
  claim9_amended_turn_bound.2.2.1 initializeDefaultGameState 0 "i" ["a"] (by decide)

/-! ### Claim C1 — turn gating while Active -/

/-- A room with an active (non-AI) turtle soup. -/
def activeRoom (participants : List String) (initiator : String) : Room :=
  { initializeDefaultGameState with
    turtleSoupActive := true
    turtleSoupParticipants := participants
    turtleSoupInitiator := some initiator }

/-- A room with an active turtle soup and the AI overlay attached. -/
def aiActiveRoom (participants : List String) (initiator : String) : Room :=
  { initializeDefaultGameState with
    turtleSoupActive := true
    turtleSoupParticipants := participants
    turtleSoupInitiator := some initiator
    aiHostActive := true
    aiHostInitiator := some initiator
    aiHostParticipants := participants }

/-- C1 counterexample: with `["alice", "bob"]` active and `turnIndex = 0`,
a turn-scoped message from `bob` (not the addressed participant) is not
silently dropped: the raw chat message is still broadcast and persisted,
even though scores and the turn index are untouched. -/
theorem claim1_counterexample :
    Effect.broadcast (.chat "bob" "question" 5 true false) ∈
      (handleChatMessage (activeRoom ["alice", "bob"] "alice") 5 0
        (.ok "x" false) "bob" "question" true false).2 ∧
    Effect.putMessage 5 (.chat "bob" "question" 5 true false) ∈
      (handleChatMessage (activeRoom ["alice", "bob"] "alice") 5 0
        (.ok "x" false) "bob" "question" true false).2 ∧
    (handleChatMessage (activeRoom ["alice", "bob"] "alice") 5 0
        (.ok "x" false) "bob" "question" true false).1.currentTurnIndex = 0 := by
  decide

/-- C1 (amended): a turn-scoped message from a sender other than
`participants[turnIndex]` never changes scores or the turn index: in the
AI overlay it is fully dropped (no broadcast, no persistence), while in
the plain mode the raw chat message is still broadcast and persisted as
ordinary chat; every accepted turn advances the index to
`(turnIndex + 1) mod participants.length`. -/
theorem claim1_amended_turn_gating :
    (∀ (r : Room) (now pick : Nat) (ai : AIOutcome) (sender msg : String),
      r.turtleSoupActive = true → r.aiHostActive = false →
      r.turtleSoupParticipants[r.currentTurnIndex]? ≠ some sender →
      handleChatMessage r now pick ai sender msg true false =
        ({ r with lastTimestamp := max now (r.lastTimestamp + 1) },
         [Effect.broadcast (.chat sender (safeString msg 256)
            (max now (r.lastTimestamp + 1)) true false),
          Effect.putMessage (max now (r.lastTimestamp + 1))
            (.chat sender (safeString msg 256)
              (max now (r.lastTimestamp + 1)) true false)])) ∧
    (∀ (r : Room) (now pick : Nat) (ai : AIOutcome) (sender msg : String),
      r.turtleSoupActive = true → r.aiHostActive = true →
      r.turtleSoupParticipants[r.currentTurnIndex]? ≠ some sender →
      handleChatMessage r now pick ai sender msg true true =
        ({ r with lastTimestamp := max now (r.lastTimestamp + 1) }, [])) ∧
    (∀ (r : Room) (now pick : Nat) (ai : AIOutcome) (sender msg : String),
      r.turtleSoupActive = true → r.aiHostActive = false →
      r.turtleSoupParticipants[r.currentTurnIndex]? = some sender →
      (handleChatMessage r now pick ai sender msg true false).1.currentTurnIndex =
        (r.currentTurnIndex + 1) % r.turtleSoupParticipants.length) ∧
    (∀ (r : Room) (now pick : Nat) (ai : AIOutcome) (sender msg : String),
      r.turtleSoupActive = true → r.aiHostActive = true →
      r.turtleSoupParticipants[r.currentTurnIndex]? = some sender →
      (handleChatMessage r now pick ai sender msg true true).1.currentTurnIndex =
        (r.currentTurnIndex + 1) % r.turtleSoupParticipants.length) := by
  have hguard : ∀ msg : String, ¬ ((safeString msg 256).length > 256) := by
    intro msg
    have := length_safeString_le msg 256
    omega
  refine ⟨?_, ?_, ?_, ?_⟩
  · intro r now pick ai sender msg h1 h2 h3
    unfold handleChatMessage
    rw [if_neg (hguard msg)]
    simp [h1, h2, handleTurtleSoupMessage, h3]
  · intro r now pick ai sender msg h1 h2 h3
    unfold handleChatMessage
    rw [if_neg (hguard msg)]
    simp [h1, h2, handleTurtleSoupAIMessage, h3]
  · intro r now pick ai sender msg h1 h2 h3
    unfold handleChatMessage
    rw [if_neg (hguard msg)]
    simp [h1, h2, handleTurtleSoupMessage, h3]
  · intro r now pick ai sender msg h1 h2 h3
    unfold handleChatMessage
    rw [if_neg (hguard msg)]
    have hpres := processAIHostQuestion_preserves
      { r with lastTimestamp := max now (r.lastTimestamp + 1) } now ai sender
      (safeString msg 256)
    simp only [h1, h2] at hpres
    simp [h1, h2, handleTurtleSoupAIMessage, h3, hpres.1, hpres.2]

/-- Witness for C1 (amended): the wrong-turn plain-mode path at a concrete
room. -/
theorem claim1_amended_witness :
    handleChatMessage (activeRoom ["alice", "bob"] "alice") 5 0
        (.ok "x" false) "bob" "hi!" true false =
      ({ activeRoom ["alice", "bob"] "alice" with
          lastTimestamp := max 5 ((activeRoom ["alice", "bob"] "alice").lastTimestamp + 1) },
       [Effect.broadcast (.chat "bob" (safeString "hi!" 256)
          (max 5 ((activeRoom ["alice", "bob"] "alice").lastTimestamp + 1)) true false),
        Effect.putMessage (max 5 ((activeRoom ["alice", "bob"] "alice").lastTimestamp + 1))
          (.chat "bob" (safeString "hi!" 256)
            (max 5 ((activeRoom ["alice", "bob"] "alice").lastTimestamp + 1)) true false)]) :=
  claim1_amended_turn_gating.1 (activeRoom ["alice", "bob"] "alice") 5 0
    (.ok "x" false) "bob" "hi!" (by decide) (by decide) (by decide)

/-! ### Claim C4 — snapshot write before broadcast -/

/-- C4 counterexample: an accepted non-AI turn is a state-changing
transition (the turn index advances) whose handler broadcasts but never
writes the snapshot, so the snapshot-before-broadcast ordering fails. -/
theorem claim4_counterexample :
    ((handleChatMessage (activeRoom ["alice", "bob"] "alice") 5 0
        (.ok "x" false) "alice" "question" true false).2.any
          (fun e => isBroadcast e)) = true ∧
    ((handleChatMessage (activeRoom ["alice", "bob"] "alice") 5 0
        (.ok "x" false) "alice" "question" true false).2.all
          (fun e => !(isSave e))) = true ∧
    (handleChatMessage (activeRoom ["alice", "bob"] "alice") 5 0
        (.ok "x" false) "alice" "question" true false).1.currentTurnIndex ≠
      (activeRoom ["alice", "bob"] "alice").currentTurnIndex := by
  decide

/-- C4 (amended): the snapshot is written before every broadcast for game
start, game end, AI-overlay teardown and AI-overlay attachment, and an
accepted AI-overlay turn ends with a snapshot write immediately followed
by the turn-change broadcast; but an accepted non-AI turn and the
initiator-forced turn change write no snapshot at all. -/
theorem claim4_amended_save_ordering :
    (∀ (r : Room) (now : Nat) (I : String) (P : List String),
      everyBroadcastAfterSave (startTurtleSoup r now I P).2 = true) ∧
    (∀ (r : Room) (now : Nat),
      everyBroadcastAfterSave (endTurtleSoup r now).2 = true) ∧
    (∀ (r : Room) (now : Nat),
      everyBroadcastAfterSave (endAIHostMode r now).2 = true) ∧
    (∀ (r : Room) (now : Nat) (sender initiator : String) (puzzle : Option Puzzle)
      (startOk : Bool),
      everyBroadcastAfterSave
        (handleTurtleSoupPuzzleSelected r now sender initiator puzzle startOk).2 = true) ∧
    (∀ (r : Room) (now : Nat) (ai : AIOutcome) (sender msg : String),
      r.turtleSoupParticipants[r.currentTurnIndex]? = some sender →
      ∃ pre snap idx np,
        (handleTurtleSoupAIMessage r now ai sender msg).2 =
          pre ++ [Effect.save snap, Effect.broadcast (.turnChange idx np none)]) ∧
    (∀ (r : Room) (pick : Nat) (sender msg : String),
      ((handleTurtleSoupMessage r pick sender msg).2.all (fun e => !(isSave e))) = true) ∧
    (∀ (r : Room) (sender : String) (idx : Nat) (np : Option String),
      ((handleTurtleSoupTurnChange r sender idx np).2.all (fun e => !(isSave e))) = true) := by
  refine ⟨?_, ?_, ?_, ?_, ?_, ?_, ?_⟩
  · intro r now I P
    rfl
  · intro r now
    unfold endTurtleSoup
    by_cases h : r.aiHostActive <;>
      simp [h, endAIHostMode, everyBroadcastAfterSave, broadcastsCoveredFrom]
  · intro r now
    rfl
  · intro r now sender initiator puzzle startOk
    unfold handleTurtleSoupPuzzleSelected
    split
    · rfl
    · cases puzzle with
      | none => rfl
      | some p =>
        by_cases h : startOk <;> simp [h] <;> rfl
  · intro r now ai sender msg h
    have h' : ¬ (r.turtleSoupParticipants[r.currentTurnIndex]? ≠ some sender) := by
      simp [h]
    simp only [handleTurtleSoupAIMessage, if_neg h']
    exact ⟨_, _, _, _, rfl⟩
  · intro r pick sender msg
    by_cases h : r.turtleSoupParticipants[r.currentTurnIndex]? ≠ some sender
    · simp only [handleTurtleSoupMessage, if_pos h]
      rfl
    · simp only [handleTurtleSoupMessage, if_neg h]
      rfl
  · intro r sender idx np
    unfold handleTurtleSoupTurnChange
    split
    · rfl
    · rfl

/-- Witness for C4 (amended): an accepted AI-overlay turn at a concrete
room ends with the snapshot write directly before the turn-change
broadcast. -/
theorem claim4_amended_witness :
    ∃ pre snap idx np,
      (handleTurtleSoupAIMessage (aiActiveRoom ["alice", "bob"] "alice") 5
          (.ok "f" false) "alice" "q").2 =
        pre ++ [Effect.save snap, Effect.broadcast (.turnChange idx np none)] :=
  claim4_amended_save_ordering.2.2.2.2.1 (aiActiveRoom ["alice", "bob"] "alice") 5
    (.ok "f" false) "alice" "q" (by decide)

/-! ### Claim C2 — the PendingConfirmation-to-Active transition -/

theorem runConfirmations_of_none {r : Room} {I : String} (now : Nat)
    (msgs : List (String × Bool)) (h : mapGet I r.pendingConfirmations = none) :
    runConfirmations r now I msgs = (r, []) := by
  induction msgs with
  | nil => rfl
  | cons m ms ih =>
    unfold runConfirmations
    rw [handleConf_none now m.1 m.2 h]
    simp [ih]

theorem countStarts_append (a b : List Effect) :
    countStarts (a ++ b) = countStarts a + countStarts b := by
  unfold countStarts
  exact List.countP_append _ a b

/-- Each confirmation step preserves unique ticket keys. -/
theorem handleConf_nodup_keys {r : Room} (now : Nat) (I u : String) (c : Bool)
    (h : (mapKeys r.pendingConfirmations).Nodup) :
    (mapKeys (handleTurtleSoupConfirmation r now I u c).1.pendingConfirmations).Nodup := by
  cases hmg : mapGet I r.pendingConfirmations with
  | none => rw [handleConf_none now u c hmg]; exact h
  | some t =>
    obtain ⟨cu, P⟩ := t
    cases c with
    | false => rw [conf_eq_decline now u hmg]; exact nodup_mapKeys_mapDelete I h
    | true =>
      by_cases hm : u ∈ cu
      · rw [conf_eq_dup now hmg hm]; exact h
      · by_cases hcond : (cu ++ [u]).length = (P.filter (fun u' => u' ≠ I)).length
        · rw [conf_eq_accept_fire now hmg hm hcond]
          exact nodup_mapKeys_mapDelete I (nodup_mapKeys_mapSet I _ h)
        · rw [conf_eq_accept_nofire now hmg hm hcond]
          exact nodup_mapKeys_mapSet I _ h

/-- A single confirmation step broadcasts at most one game start. -/
theorem handleConf_starts_le_one (r : Room) (now : Nat) (I u : String) (c : Bool) :
    countStarts (handleTurtleSoupConfirmation r now I u c).2 ≤ 1 := by
  cases hmg : mapGet I r.pendingConfirmations with
  | none => rw [handleConf_none now u c hmg]; simp [countStarts]
  | some t =>
    obtain ⟨cu, P⟩ := t
    cases c with
    | false =>
      rw [conf_eq_decline now u hmg]
      simp [countStarts, isStartBroadcast, List.countP_cons]
    | true =>
      by_cases hm : u ∈ cu
      · rw [conf_eq_dup now hmg hm]; simp [countStarts]
      · by_cases hcond : (cu ++ [u]).length = (P.filter (fun u' => u' ≠ I)).length
        · rw [conf_eq_accept_fire now hmg hm hcond]
          simp [countStarts, startTurtleSoup, isStartBroadcast, List.countP_cons]
        · rw [conf_eq_accept_nofire now hmg hm hcond]
          simp [countStarts, isStartBroadcast, List.countP_cons]

/-- If a step broadcasts a start, the initiator ticket is gone afterwards. -/
theorem handleConf_start_deletes {r : Room} (now : Nat) (I u : String) (c : Bool)
    (h : (mapKeys r.pendingConfirmations).Nodup)
    (hs : countStarts (handleTurtleSoupConfirmation r now I u c).2 ≠ 0) :
    mapGet I (handleTurtleSoupConfirmation r now I u c).1.pendingConfirmations = none := by
  cases hmg : mapGet I r.pendingConfirmations with
  | none =>
    rw [handleConf_none now u c hmg] at hs
    simp [countStarts] at hs
  | some t =>
    obtain ⟨cu, P⟩ := t
    cases c with
    | false =>
      rw [conf_eq_decline now u hmg] at hs
      simp [countStarts, isStartBroadcast, List.countP_cons] at hs
    | true =>
      by_cases hm : u ∈ cu
      · rw [conf_eq_dup now hmg hm] at hs
        simp [countStarts] at hs
      · by_cases hcond : (cu ++ [u]).length = (P.filter (fun u' => u' ≠ I)).length
        · rw [conf_eq_accept_fire now hmg hm hcond]
          exact mapGet_mapDelete_self (nodup_mapKeys_mapSet I _ h)
        · rw [conf_eq_accept_nofire now hmg hm hcond] at hs
          simp [countStarts, isStartBroadcast, List.countP_cons] at hs

/-- Over any reply sequence, the start transition fires at most once. -/
theorem runConfirmations_starts_le_one (now : Nat) (I : String)
    (msgs : List (String × Bool)) :
    ∀ r : Room, (mapKeys r.pendingConfirmations).Nodup →
      countStarts (runConfirmations r now I msgs).2 ≤ 1 := by
  induction msgs with
  | nil => intro r _; simp [runConfirmations, countStarts]
  | cons m ms ih =>
    intro r h
    show countStarts ((handleTurtleSoupConfirmation r now I m.1 m.2).2 ++
      (runConfirmations (handleTurtleSoupConfirmation r now I m.1 m.2).1 now I ms).2) ≤ 1
    rw [countStarts_append]
    by_cases hz : countStarts (handleTurtleSoupConfirmation r now I m.1 m.2).2 = 0
    · rw [hz]
      simpa using ih _ (handleConf_nodup_keys now I m.1 m.2 h)
    · have h1 : countStarts (handleTurtleSoupConfirmation r now I m.1 m.2).2 = 1 := by
        have := handleConf_starts_le_one r now I m.1 m.2
        omega
      have hdel := handleConf_start_deletes now I m.1 m.2 h hz
      rw [runConfirmations_of_none now ms hdel]
      show countStarts (handleTurtleSoupConfirmation r now I m.1 m.2).2 +
          countStarts [] ≤ 1
      rw [h1]
      decide

/-- C2 counterexample: the initiator field of a ticket is the
client-supplied `data.initiator`, never validated against the frozen
list.  For a ticket whose initiator `ghost` is outside the frozen list
`["a", "b"]`, the accept that brings the accepted count to the frozen
length minus one (1 of 2) does not fire the transition, and the
transition instead fires at accepted count equal to the full frozen
length — refuting the claim's "length minus one" instant. -/
theorem claim2_counterexample :
    countStarts (handleTurtleSoupConfirmation
        (roomWithPending [("ghost", ⟨[], ["a", "b"]⟩)]) 0 "ghost" "a" true).2 = 0 ∧
    countStarts (handleTurtleSoupConfirmation
        (roomWithPending [("ghost", ⟨["a"], ["a", "b"]⟩)]) 0 "ghost" "b" true).2 = 1 := by
  decide

/-- C2 (amended): (a) over any reply sequence to one ticket the
transition to Active fires at most once — once fired (or cancelled) any
late reply is a no-op; (b) a fresh accept fires the transition exactly
when it makes the accepted count equal the number of frozen participants
other than the ticket's initiator (the target is computed from the
ticket's frozen list, never a live recount); (c) that target equals the
frozen list length minus one exactly in the intended case that the
initiator belongs to the (duplicate-free) frozen list — a client-forged
initiator outside the list raises the target to the full frozen length;
(d) when the transition fires, the turn index resets to 0 and every
frozen participant's score is reset to zero. -/
theorem claim2_amended_quorum :
    (∀ (now : Nat) (I : String) (msgs : List (String × Bool)) (r : Room),
      (mapKeys r.pendingConfirmations).Nodup →
      countStarts (runConfirmations r now I msgs).2 ≤ 1) ∧
    (∀ (r : Room) (now : Nat) (I u : String) (cu P : List String),
      mapGet I r.pendingConfirmations = some ⟨cu, P⟩ → u ∉ cu →
      (countStarts (handleTurtleSoupConfirmation r now I u true).2 = 1 ↔
        cu.length + 1 = (P.filter (fun u' => u' ≠ I)).length)) ∧
    (∀ (I : String) (P : List String), I ∈ P → P.Nodup →
      (P.filter (fun u' => u' ≠ I)).length = P.length - 1) ∧
    (∀ (r : Room) (now : Nat) (I u : String) (cu P : List String),
      mapGet I r.pendingConfirmations = some ⟨cu, P⟩ → u ∉ cu →
      cu.length + 1 = (P.filter (fun u' => u' ≠ I)).length →
      (handleTurtleSoupConfirmation r now I u true).1.currentTurnIndex = 0 ∧
      (handleTurtleSoupConfirmation r now I u true).1.turtleSoupActive = true ∧
      ∀ p ∈ P, mapGet p (handleTurtleSoupConfirmation r now I u true).1.userScores =
        some ⟨0, 0⟩) := by
  refine ⟨fun now I msgs r h => runConfirmations_starts_le_one now I msgs r h,
    ?_, fun I P hIP hnd => length_filter_ne hIP hnd, ?_⟩
  · intro r now I u cu P hmg hu
    by_cases hcond : (cu ++ [u]).length = (P.filter (fun u' => u' ≠ I)).length
    · rw [conf_eq_accept_fire now hmg hu hcond]
      constructor
      · intro _
        simpa using hcond
      · intro _
        simp [countStarts, startTurtleSoup, isStartBroadcast, List.countP_cons]
    · rw [conf_eq_accept_nofire now hmg hu hcond]
      constructor
      · intro hcnt
        simp [countStarts, isStartBroadcast, List.countP_cons] at hcnt
      · intro heq
        exact absurd (show (cu ++ [u]).length =
            (P.filter (fun u' => u' ≠ I)).length by simpa using heq) hcond
  · intro r now I u cu P hmg hu heq
    have hcond : (cu ++ [u]).length = (P.filter (fun u' => u' ≠ I)).length := by
      simpa using heq
    rw [conf_eq_accept_fire now hmg hu hcond]
    refine ⟨rfl, rfl, ?_⟩
    intro p hp
    show mapGet p (P.foldl (fun m q => mapSet q (⟨0, 0⟩ : UserScore) m) []) =
      some (⟨0, 0⟩ : UserScore)
    rw [mapGet_foldl_zero]
    simp [hp]

/-- Witness for C2 (amended) at a concrete ticket whose initiator is in
the frozen list `["i", "a", "b"]`: with `a` already accepted, `b`'s
accept makes the count equal the two required replies and fires the
transition. -/
theorem claim2_amended_witness :
    countStarts (handleTurtleSoupConfirmation
        (roomWithPending [("i", ⟨["a"], ["i", "a", "b"]⟩)]) 0 "i" "b" true).2 = 1 :=
  (claim2_amended_quorum.2.1 (roomWithPending [("i", ⟨["a"], ["i", "a", "b"]⟩)])
      0 "i" "b" ["a"] ["i", "a", "b"] (by decide) (by decide)).mpr (by decide)

/-! ### Claim C5 — no delivery before the handshake -/

theorem btrans_fst (message : String) (p : Nat × Session) :
    (btrans message p).1 = p.1 := by
  unfold btrans
  split <;> rfl

theorem btrans_name (message : String) (p : Nat × Session) :
    (btrans message p).2.name = p.2.name := by
  unfold btrans
  split <;> rfl

theorem strans_fst (id : Nat) (s : Session) (p : Nat × Session) :
    (strans id s p).1 = p.1 := by
  unfold strans
  split
  · rename_i h
    exact h.symm
  · rfl

theorem mem_sysBroadcast_deliveries {sys : ChatSys} {message : String}
    {x : Nat × String} :
    x ∈ (sysBroadcast sys message).2 ↔
      ∃ q ∈ sys.sessions, q.2.name.isSome = true ∧ x = (q.1, message) := by
  show x ∈ sys.sessions.filterMap (fun p =>
      if p.2.name.isSome then some (p.1, message) else none) ↔ _
  rw [List.mem_filterMap]
  constructor
  · rintro ⟨a, ha, hfa⟩
    by_cases hn : a.2.name.isSome
    · rw [if_pos hn] at hfa
      exact ⟨a, ha, hn, (Option.some_inj.mp hfa).symm⟩
    · rw [if_neg hn] at hfa
      cases hfa
  · rintro ⟨q, hq, hn, rfl⟩
    exact ⟨q, hq, by rw [if_pos hn]⟩

theorem mem_of_mapGetNat {β : Type} {id : Nat} {l : List (Nat × β)} {s : β}
    (h : mapGetNat id l = some s) : (id, s) ∈ l := by
  induction l with
  | nil => cases h
  | cons p rest ih =>
    obtain ⟨a, b⟩ := p
    by_cases hp : a = id
    · simp only [mapGetNat, if_pos hp] at h
      subst hp
      rw [Option.some_inj.mp h] at *
      exact List.mem_cons_self _ _
    · simp only [mapGetNat, if_neg hp] at h
      exact List.mem_cons.mpr (Or.inr (ih h))

theorem map_fst_map_btrans (message : String) (l : List (Nat × Session)) :
    (l.map (btrans message)).map Prod.fst = l.map Prod.fst := by
  induction l with
  | nil => rfl
  | cons p rest ih =>
    simp only [List.map_cons, btrans_fst, ih]

theorem map_fst_map_strans (id : Nat) (s : Session) (l : List (Nat × Session)) :
    (l.map (strans id s)).map Prod.fst = l.map Prod.fst := by
  induction l with
  | nil => rfl
  | cons p rest ih =>
    simp only [List.map_cons, strans_fst, ih]

/-- Session identifiers are injective on a well-formed registry. -/
theorem SysWF.fst_inj {sys : ChatSys} (hwf : SysWF sys) {p q : Nat × Session}
    (hp : p ∈ sys.sessions) (hq : q ∈ sys.sessions) (h : p.1 = q.1) : p = q :=
  List.inj_on_of_nodup_map hwf.1 hp hq h

theorem sysJoin_wf {sys : ChatSys} (hwf : SysWF sys) (backlog : List String) :
    SysWF (sysJoin sys backlog).1 := by
  obtain ⟨hnd, hlt⟩ := hwf
  unfold sysJoin
  refine ⟨?_, ?_⟩
  · simp only [List.map_append]
    rw [List.nodup_append]
    refine ⟨hnd, List.nodup_singleton _, ?_⟩
    intro a ha
    simp only [List.map_cons, List.map_nil, List.mem_singleton]
    intro hEq
    obtain ⟨p, hp, hpa⟩ := List.mem_map.mp ha
    have := hlt p hp
    omega
  · intro p hp
    rcases List.mem_append.mp hp with h1 | h2
    · exact Nat.lt_succ_of_lt (hlt p h1)
    · simp only [List.mem_singleton] at h2
      subst h2
      exact Nat.lt_succ_self _

theorem sysBroadcast_wf {sys : ChatSys} (hwf : SysWF sys) (message : String) :
    SysWF (sysBroadcast sys message).1 := by
  obtain ⟨hnd, hlt⟩ := hwf
  refine ⟨?_, ?_⟩
  · show ((sys.sessions.map (btrans message)).map Prod.fst).Nodup
    rw [map_fst_map_btrans]
    exact hnd
  · intro p hp
    obtain ⟨q, hq, rfl⟩ := List.mem_map.mp hp
    rw [btrans_fst]
    exact hlt q hq

theorem sysSetSession_wf {sys : ChatSys} (hwf : SysWF sys) (id : Nat) (s : Session) :
    SysWF (sysSetSession sys id s) := by
  obtain ⟨hnd, hlt⟩ := hwf
  refine ⟨?_, ?_⟩
  · show ((sys.sessions.map (strans id s)).map Prod.fst).Nodup
    rw [map_fst_map_strans]
    exact hnd
  · intro p hp
    obtain ⟨q, hq, rfl⟩ := List.mem_map.mp hp
    rw [strans_fst]
    exact hlt q hq

theorem sysFilter_wf {sys : ChatSys} (hwf : SysWF sys) (id : Nat) :
    SysWF { sys with sessions := sys.sessions.filter (fun p => p.1 ≠ id) } := by
  obtain ⟨hnd, hlt⟩ := hwf
  refine ⟨?_, ?_⟩
  · exact ((List.filter_sublist _).map Prod.fst).nodup hnd
  · intro p hp
    exact hlt p (List.mem_of_mem_filter hp)

theorem sysHandshake_wf {sys : ChatSys} (hwf : SysWF sys) (id : Nat)
    (rawName : String) (rq g : Bool) :
    SysWF (sysHandshake sys id rawName rq g).1 := by
  cases hmg : mapGetNat id sys.sessions with
  | none =>
    have he : sysHandshake sys id rawName rq g = (sys, []) := by
      unfold sysHandshake
      rw [hmg]
    rw [he]
    exact hwf
  | some s =>
    by_cases hn : s.name.isSome
    · have he : sysHandshake sys id rawName rq g = (sys, []) := by
        unfold sysHandshake
        simp only [hmg, if_pos hn]
      rw [he]
      exact hwf
    · have he : (sysHandshake sys id rawName rq g).1 =
          (sysBroadcast (sysSetSession sys id
            { s with name := some (safeString (jsOrString rawName "anonymous") 32)
                     blockedMessages := [] })
            ("joined " ++ safeString (jsOrString rawName "anonymous") 32)).1 := by
        unfold sysHandshake
        simp only [hmg, if_neg hn]
      rw [he]
      exact sysBroadcast_wf (sysSetSession_wf hwf _ _) _

theorem sysLeave_wf {sys : ChatSys} (hwf : SysWF sys) (id : Nat) :
    SysWF (sysLeave sys id).1 := by
  cases hmg : mapGetNat id sys.sessions with
  | none =>
    have he : sysLeave sys id = (sys, []) := by
      unfold sysLeave
      rw [hmg]
    rw [he]
    exact hwf
  | some s =>
    cases hs : s.name with
    | none =>
      have he : (sysLeave sys id).1 =
          { sys with sessions := sys.sessions.filter (fun p => p.1 ≠ id) } := by
        unfold sysLeave
        simp only [hmg, hs]
      rw [he]
      exact sysFilter_wf hwf id
    | some n =>
      have he : (sysLeave sys id).1 =
          (sysBroadcast { sys with sessions := sys.sessions.filter (fun p => p.1 ≠ id) }
            ("quit " ++ n)).1 := by
        unfold sysLeave
        simp only [hmg, hs]
      rw [he]
      exact sysBroadcast_wf (sysFilter_wf hwf id) _

theorem sysStep_wf {sys : ChatSys} (hwf : SysWF sys) (e : SEvent) :
    SysWF (sysStep sys e).1 := by
  cases e with
  | join backlog => exact sysJoin_wf hwf backlog
  | handshake id rawName rq g => exact sysHandshake_wf hwf id rawName rq g
  | broadcastEv message => exact sysBroadcast_wf hwf message
  | leave id => exact sysLeave_wf hwf id

theorem sysJoin_unseen {sys : ChatSys} {ds : List (Nat × String)}
    (hun : Unseen sys ds) (backlog : List String) :
    Unseen (sysJoin sys backlog).1 (ds ++ (sysJoin sys backlog).2) := by
  obtain ⟨h1, h2⟩ := hun
  have hds : ds ++ (sysJoin sys backlog).2 = ds := List.append_nil ds
  rw [hds]
  refine ⟨?_, ?_⟩
  · intro p hp hname m hm
    rcases List.mem_append.mp hp with hold | hnew
    · exact h1 p hold hname m hm
    · simp only [List.mem_singleton] at hnew
      subst hnew
      exact h2 sys.nextId (le_refl _) m hm
  · intro id hid m hm
    have : sys.nextId ≤ id := le_trans (Nat.le_succ _) hid
    exact h2 id this m hm

theorem sysBroadcast_unseen {sys : ChatSys} {ds : List (Nat × String)}
    (hwf : SysWF sys) (hun : Unseen sys ds) (message : String) :
    Unseen (sysBroadcast sys message).1 (ds ++ (sysBroadcast sys message).2) := by
  obtain ⟨h1, h2⟩ := hun
  refine ⟨?_, ?_⟩
  · intro p' hp' hname m hm
    have hsess : (sysBroadcast sys message).1.sessions =
        sys.sessions.map (btrans message) := rfl
    rw [hsess] at hp'
    obtain ⟨p, hp, rfl⟩ := List.mem_map.mp hp'
    rw [btrans_name] at hname
    rw [btrans_fst] at hm
    rcases List.mem_append.mp hm with hold | hnew
    · exact h1 p hp hname m hold
    · rw [mem_sysBroadcast_deliveries] at hnew
      obtain ⟨q, hq, hqn, hEq⟩ := hnew
      have hfst : p.1 = q.1 := (Prod.mk.injEq _ _ _ _).mp hEq |>.1
      have hpq := hwf.fst_inj hp hq hfst
      rw [← hpq, hname] at hqn
      cases hqn
  · intro id hid m hm
    have hnx : (sysBroadcast sys message).1.nextId = sys.nextId := rfl
    rw [hnx] at hid
    rcases List.mem_append.mp hm with hold | hnew
    · exact h2 id hid m hold
    · rw [mem_sysBroadcast_deliveries] at hnew
      obtain ⟨q, hq, hqn, hEq⟩ := hnew
      have hfst : id = q.1 := (Prod.mk.injEq _ _ _ _).mp hEq |>.1
      have := hwf.2 q hq
      omega

theorem sysLeave_unseen {sys : ChatSys} {ds : List (Nat × String)}
    (hwf : SysWF sys) (hun : Unseen sys ds) (id : Nat) :
    Unseen (sysLeave sys id).1 (ds ++ (sysLeave sys id).2) := by
  obtain ⟨h1, h2⟩ := hun
  cases hmg : mapGetNat id sys.sessions with
  | none =>
    have he : sysLeave sys id = (sys, []) := by
      unfold sysLeave
      rw [hmg]
    rw [he, List.append_nil]
    exact ⟨h1, h2⟩
  | some s =>
    have hfun : Unseen { sys with sessions := sys.sessions.filter (fun p => p.1 ≠ id) } ds := by
      refine ⟨?_, h2⟩
      intro p hp hname m hm
      exact h1 p (List.mem_of_mem_filter hp) hname m hm
    cases hs : s.name with
    | none =>
      have he : sysLeave sys id =
          ({ sys with sessions := sys.sessions.filter (fun p => p.1 ≠ id) }, []) := by
        unfold sysLeave
        simp only [hmg, hs]
      rw [he, List.append_nil]
      exact hfun
    | some n =>
      have he : sysLeave sys id =
          sysBroadcast { sys with sessions := sys.sessions.filter (fun p => p.1 ≠ id) }
            ("quit " ++ n) := by
        unfold sysLeave
        simp only [hmg, hs]
      rw [he]
      exact sysBroadcast_unseen (sysFilter_wf hwf id) hfun _

theorem sysHandshake_unseen {sys : ChatSys} {ds : List (Nat × String)}
    (hwf : SysWF sys) (hun : Unseen sys ds) (id : Nat) (rawName : String)
    (rq g : Bool) :
    Unseen (sysHandshake sys id rawName rq g).1
      (ds ++ (sysHandshake sys id rawName rq g).2) := by
  obtain ⟨h1, h2⟩ := hun
  cases hmg : mapGetNat id sys.sessions with
  | none =>
    have he : sysHandshake sys id rawName rq g = (sys, []) := by
      unfold sysHandshake
      rw [hmg]
    rw [he, List.append_nil]
    exact ⟨h1, h2⟩
  | some s =>
    by_cases hn : s.name.isSome
    · have he : sysHandshake sys id rawName rq g = (sys, []) := by
        unfold sysHandshake
        simp only [hmg, if_pos hn]
      rw [he, List.append_nil]
      exact ⟨h1, h2⟩
    · have hidmem : (id, s) ∈ sys.sessions := mem_of_mapGetNat hmg
      have hidlt : id < sys.nextId := hwf.2 _ hidmem
      have he : sysHandshake sys id rawName rq g =
          ((sysBroadcast (sysSetSession sys id
              { name := some (safeString (jsOrString rawName "anonymous") 32)
                blockedMessages := []
                quit := s.quit })
              ("joined " ++ safeString (jsOrString rawName "anonymous") 32)).1,
           s.blockedMessages.map (fun m => (id, m)) ++
             (sysBroadcast (sysSetSession sys id
               { name := some (safeString (jsOrString rawName "anonymous") 32)
                 blockedMessages := []
                 quit := s.quit })
               ("joined " ++ safeString (jsOrString rawName "anonymous") 32)).2 ++
             ((if rq && g then [(id, "gameStateSync")] else []) ++ [(id, "ready")])) := by
        unfold sysHandshake
        simp only [hmg, if_neg hn]
      rw [he]
      have htail_fst : ∀ x ∈ ((if rq && g then [(id, "gameStateSync")] else []) ++
          [(id, "ready")] : List (Nat × String)), x.1 = id := by
        intro x hx
        rcases List.mem_append.mp hx with hxa | hxb
        · split at hxa
          · rw [List.mem_singleton] at hxa
            rw [hxa]
          · cases hxa
        · rw [List.mem_singleton] at hxb
          rw [hxb]
      refine ⟨?_, ?_⟩
      · intro p'' hp'' hname m hm
        obtain ⟨p', hp', rfl⟩ := List.mem_map.mp hp''
        obtain ⟨p, hp, rfl⟩ := List.mem_map.mp hp'
        rw [btrans_name] at hname
        by_cases hpid : p.1 = id
        · rw [show strans id
              { name := some (safeString (jsOrString rawName "anonymous") 32)
                blockedMessages := []
                quit := s.quit } p =
              (id, { name := some (safeString (jsOrString rawName "anonymous") 32)
                     blockedMessages := []
                     quit := s.quit }) from by unfold strans; rw [if_pos hpid]] at hname
          cases hname
        · have hstr : strans id
              { name := some (safeString (jsOrString rawName "anonymous") 32)
                blockedMessages := []
                quit := s.quit } p = p := by
            unfold strans
            rw [if_neg hpid]
          rw [hstr] at hname
          rw [btrans_fst, hstr] at hm
          rcases List.mem_append.mp hm with hold | hnew
          · exact h1 p hp hname m hold
          · rcases List.mem_append.mp hnew with hfb | htl
            · rcases List.mem_append.mp hfb with hfl | hbd
              · obtain ⟨m', _, hEq⟩ := List.mem_map.mp hfl
                have : id = p.1 := ((Prod.mk.injEq _ _ _ _).mp hEq).1
                exact hpid this.symm
              · rw [mem_sysBroadcast_deliveries] at hbd
                obtain ⟨q', hq', hq'n, hEq⟩ := hbd
                obtain ⟨q, hq, rfl⟩ := List.mem_map.mp hq'
                have hfst : p.1 = q.1 := by
                  have := ((Prod.mk.injEq _ _ _ _).mp hEq).1
                  rw [strans_fst] at this
                  exact this
                have hpq := hwf.fst_inj hp hq hfst
                rw [← hpq, hstr] at hq'n
                rw [hname] at hq'n
                cases hq'n
            · exact hpid (htail_fst _ htl)
      · intro id' hid' m hm
        have hnx : (sysBroadcast (sysSetSession sys id
            { name := some (safeString (jsOrString rawName "anonymous") 32)
              blockedMessages := []
              quit := s.quit })
            ("joined " ++ safeString (jsOrString rawName "anonymous") 32)).1.nextId =
            sys.nextId := rfl
        rw [hnx] at hid'
        rcases List.mem_append.mp hm with hold | hnew
        · exact h2 id' hid' m hold
        · rcases List.mem_append.mp hnew with hfb | htl
          · rcases List.mem_append.mp hfb with hfl | hbd
            · obtain ⟨m', _, hEq⟩ := List.mem_map.mp hfl
              have : id = id' := ((Prod.mk.injEq _ _ _ _).mp hEq).1
              omega
            · rw [mem_sysBroadcast_deliveries] at hbd
              obtain ⟨q', hq', hq'n, hEq⟩ := hbd
              obtain ⟨q, hq, rfl⟩ := List.mem_map.mp hq'
              have hfst : id' = q.1 := by
                have := ((Prod.mk.injEq _ _ _ _).mp hEq).1
                rw [strans_fst] at this
                exact this
              have := hwf.2 q hq
              omega
          · have : (id', m).1 = id := htail_fst _ htl
            simp only at this
            omega

theorem sysStep_unseen {sys : ChatSys} {ds : List (Nat × String)}
    (hwf : SysWF sys) (hun : Unseen sys ds) (e : SEvent) :
    Unseen (sysStep sys e).1 (ds ++ (sysStep sys e).2) := by
  cases e with
  | join backlog => exact sysJoin_unseen hun backlog
  | handshake id rawName rq g => exact sysHandshake_unseen hwf hun id rawName rq g
  | broadcastEv message => exact sysBroadcast_unseen hwf hun message
  | leave id => exact sysLeave_unseen hwf hun id

theorem sysRun_unseen (events : List SEvent) :
    ∀ (sys : ChatSys) (ds : List (Nat × String)), SysWF sys → Unseen sys ds →
      SysWF (sysRun sys events).1 ∧
        Unseen (sysRun sys events).1 (ds ++ (sysRun sys events).2) := by
  induction events with
  | nil =>
    intro sys ds hwf hun
    refine ⟨hwf, ?_⟩
    show Unseen sys (ds ++ [])
    rw [List.append_nil]
    exact hun
  | cons e es ih =>
    intro sys ds hwf hun
    have hw1 := sysStep_wf hwf e
    have hu1 := sysStep_unseen hwf hun e
    have hrec := ih (sysStep sys e).1 (ds ++ (sysStep sys e).2) hw1 hu1
    constructor
    · exact hrec.1
    · show Unseen (sysRun (sysStep sys e).1 es).1
        (ds ++ ((sysStep sys e).2 ++ (sysRun (sysStep sys e).1 es).2))
      rw [← List.append_assoc]
      exact hrec.2

/-- C5: (a) over every event sequence from a fresh room, a session that
has not completed its handshake has never been delivered anything; (b) a
broadcast delivers nothing to a pre-handshake session and instead appends
the message to that session's blocked queue; (c) on handshake completion
the deliveries start with the blocked backlog, in queue order, before any
further delivery. -/
theorem claim5_no_early_delivery :
    (∀ (events : List SEvent), ∀ p ∈ (sysRun emptySys events).1.sessions,
        p.2.name = none → ∀ m, (p.1, m) ∉ (sysRun emptySys events).2) ∧
    (∀ (sys : ChatSys) (message : String), SysWF sys →
        ∀ p ∈ sys.sessions, p.2.name = none →
        (∀ m, (p.1, m) ∉ (sysBroadcast sys message).2) ∧
        (p.1, { p.2 with blockedMessages := p.2.blockedMessages ++ [message] }) ∈
          (sysBroadcast sys message).1.sessions) ∧
    (∀ (sys : ChatSys) (id : Nat) (s : Session) (rawName : String) (rq g : Bool),
        mapGetNat id sys.sessions = some s → s.name = none →
        ∃ rest, (sysHandshake sys id rawName rq g).2 =
          s.blockedMessages.map (fun m => (id, m)) ++ rest) := by
  refine ⟨?_, ?_, ?_⟩
  · intro events p hp hname m
    have hwf0 : SysWF emptySys := ⟨List.nodup_nil, by intro p hp; cases hp⟩
    have hun0 : Unseen emptySys [] :=
      ⟨(by intro p hp; cases hp), (by intro id _ m h; cases h)⟩
    have hfin := (sysRun_unseen events emptySys [] hwf0 hun0).2
    have h := hfin.1 p hp hname m
    simpa using h
  · intro sys message hwf p hp hname
    constructor
    · intro m hm
      rw [mem_sysBroadcast_deliveries] at hm
      obtain ⟨q, hq, hqn, hEq⟩ := hm
      have hfst : p.1 = q.1 := ((Prod.mk.injEq _ _ _ _).mp hEq).1
      have hpq := hwf.fst_inj hp hq hfst
      rw [← hpq, hname] at hqn
      cases hqn
    · have hbt : btrans message p =
          (p.1, { p.2 with blockedMessages := p.2.blockedMessages ++ [message] }) := by
        unfold btrans
        rw [hname]
        rfl
      have hmem := List.mem_map_of_mem (btrans message) hp
      rw [hbt] at hmem
      exact hmem
  · intro sys id s rawName rq g hmg hname
    have hn : ¬ (s.name.isSome = true) := by
      rw [hname]
      simp
    refine ⟨(sysBroadcast (sysSetSession sys id
        { name := some (safeString (jsOrString rawName "anonymous") 32)
          blockedMessages := []
          quit := s.quit })
        ("joined " ++ safeString (jsOrString rawName "anonymous") 32)).2 ++
        ((if rq && g then [(id, "gameStateSync")] else []) ++ [(id, "ready")]), ?_⟩
    unfold sysHandshake
    simp only [hmg, if_neg hn]
    rw [List.append_assoc]

/-- Witness for C5 at a concrete trace: a pre-handshake session that has a
stored backlog queued and then sees a broadcast receives nothing. -/
theorem claim5_witness :
    ((0 : Nat), "secret") ∉
      (sysRun emptySys [.join ["secret"], .broadcastEv "hello"]).2 :=
  claim5_no_early_delivery.1 [.join ["secret"], .broadcastEv "hello"]
    (0, ⟨none, ["secret", "hello"], false⟩) (by decide) (by decide) "secret"

end WorkersChat
